import Mathlib

/-!
Shallow embedding of the room-editor document engine
(`src/contexts/RoomContext.tsx` and the brush-placement arithmetic of
`src/components/Canvas.tsx`) together with proofs about the frozen claims.

Conventions of the embedding:
* JavaScript numbers that the code only ever uses at integer values
  (pixel/grid coordinates, tile indices, room dimensions) are modelled as
  `Int`; `Math.floor(a / b)` is `Int.fdiv`, and `Math.round(g * 16)` on a
  grid-aligned (integer) brush coordinate `g` is exactly `g * 16`.
* React `useState` cells are gathered into one `EditorState` record and
  every handler becomes a pure `EditorState → EditorState` function;
  `JSON.parse(JSON.stringify(x))` deep copies are the identity on values.
* JS arrays are `List`s; `push` appends on the right, the undo/redo stacks
  therefore have their top at the end of the list (`getLast?`/`dropLast`).
* External collaborators (localStorage, DOM events, the tab list mirror in
  `updateRoomSize`, console logging, alerts) are outside the model.
-/

namespace RoomEditor

/-- `Tile` from `src/types/room.ts`; `selected` is the transient UI marker. -/
structure Tile where
  x : Int
  y : Int
  index : Int
  selected : Option Bool := none
  deriving DecidableEq, Repr

/-- `Instance` from `src/types/room.ts`.  The source types
`instance_layer_name` as `string | number`; a numeric value never equals any
layer's string name, so the model keeps it a `String`. -/
structure Instance where
  instance_layer_name : String
  obj_name : String
  x : Int
  y : Int
  deriving DecidableEq, Repr

/-- The `'tile' | 'object'` union of `Layer.type`. -/
inductive LayerType where
  | tile
  | object
  deriving DecidableEq, Repr

/-- `Layer` from `src/types/room.ts`. -/
structure Layer where
  name : String
  depth : Int
  type : LayerType
  visible : Bool
  tiles : List Tile
  texture : Option String := none
  deriving DecidableEq, Repr

/-- `Room` from `src/types/room.ts`.  The interface omits `chance`, but
`RoomContext.tsx` both initialises it (`defaultRoom`) and writes it
(`updateRoomChance`), so the model carries it. -/
structure Room where
  instances : List Instance
  layers : List Layer
  width : Int
  height : Int
  name : String
  index : String
  type : Option String := none
  biome : Option String := none
  chance : Option Int := none
  deriving DecidableEq, Repr

/-- `TileBrush` from `src/types/room.ts`; tile coordinates are grid-relative
cells as produced by `copySelectionToBrush` in `Canvas.tsx`. -/
structure TileBrush where
  tiles : List Tile
  width : Int
  height : Int
  texture : String
  offsetX : Int
  offsetY : Int
  deriving DecidableEq, Repr

/-- One element of the `batchedTiles` / `paintedTiles` /
`tilesBeforePlacement` arrays: `{layerName, x, y, index: number | null}`. -/
structure BatchedTile where
  layerName : String
  x : Int
  y : Int
  index : Option Int
  deriving DecidableEq, Repr

/-- One element of the `tilesModified` array: `{x, y, prevIndex}`. -/
structure TileMod where
  x : Int
  y : Int
  prevIndex : Option Int
  deriving DecidableEq, Repr

/-- The `type` tags of `RoomAction` that `RoomContext.tsx` constructs or
dispatches on. -/
inductive ActionType where
  | RENAME_ROOM
  | ADD_INSTANCE
  | REMOVE_INSTANCE
  | ADD_LAYER
  | REMOVE_LAYER
  | TOGGLE_LAYER_VISIBILITY
  | UPDATE_LAYER_TYPE
  | UPDATE_LAYER_TEXTURE
  | ADD_TILE
  | REMOVE_TILE
  | UPDATE_ROOM_SIZE
  | UPDATE_ROOM_TYPE
  | UPDATE_ROOM_BIOME
  | BATCH_ADD_TILES
  | BATCH_REMOVE_TILES
  | PLACE_PREFAB
  | APPLY_TILE_BRUSH
  deriving DecidableEq, Repr

/-- The `RoomAction.payload` property bag; absent JS properties are `none`.
`inst` renders the source's `instance` key (a Lean keyword).  The source's
single `index` key carries either an instance position (`REMOVE_INSTANCE`)
or a tile index (`ADD_TILE`); `tileIndex` is the separate key that the
`ADD_TILE` redo branch reads. -/
structure Payload where
  previousRoom : Option Room := none
  inst : Option Instance := none
  index : Option Int := none
  layer : Option Layer := none
  layerName : Option String := none
  x : Option Int := none
  y : Option Int := none
  tileIndex : Option Int := none
  type : Option LayerType := none
  visible : Option Bool := none
  texture : Option String := none
  width : Option Int := none
  height : Option Int := none
  previousWidth : Option Int := none
  previousHeight : Option Int := none
  previousType : Option (Option String) := none
  previousBiome : Option (Option String) := none
  biome : Option String := none
  name : Option String := none
  removedTile : Option Tile := none
  removedInstances : Option (List Instance) := none
  tilesBeforePlacement : Option (List BatchedTile) := none
  tilesBefore : Option (List Tile) := none
  tilesModified : Option (List TileMod) := none
  batchedTiles : Option (List BatchedTile) := none
  deriving DecidableEq, Repr

/-- `RoomAction` from `RoomContext.tsx`. -/
structure RoomAction where
  type : ActionType
  payload : Payload
  description : String
  deriving DecidableEq, Repr

/-- The `useState` cells of `RoomProvider` that the document engine reads
and writes (room, history stacks, replay guard, paint-session buffer and
the active brush). -/
structure EditorState where
  room : Room
  undoStack : List RoomAction
  redoStack : List RoomAction
  isUndoRedoAction : Bool
  isPainting : Bool
  paintedTiles : List BatchedTile
  initialRoomState : Option Room
  tileBrush : Option TileBrush
  deriving DecidableEq, Repr

/-- The result of `JSON.parse` on the brush-library import payload.  Numbers
only ever reach the validator through `typeof === 'number'` checks, so `Int`
suffices for them. -/
inductive Json where
  | null
  | bool (b : Bool)
  | num (n : Int)
  | str (s : String)
  | arr (elems : List Json)
  | obj (fields : List (String × Json))
  deriving Repr

/-- JS property access `value.key`: own properties of plain objects;
`undefined` (here `none`) on every other JSON value. -/
def Json.getField (j : Json) (key : String) : Option Json :=
  match j with
  | Json.obj fields => (fields.find? (fun p => p.1 == key)).map Prod.snd
  | _ => none

/-- JS truthiness of a JSON value (the `brush &&` guard). -/
def Json.truthy : Json → Bool
  | Json.null => false
  | Json.bool b => b
  | Json.num n => !(n == 0)
  | Json.str s => !(s == "")
  | Json.arr _ => true
  | Json.obj _ => true

/-- `typeof v === 'string'` on an optional property. -/
def isStringField : Option Json → Bool
  | some (Json.str _) => true
  | _ => false

/-- `typeof v === 'number'` on an optional property. -/
def isNumberField : Option Json → Bool
  | some (Json.num _) => true
  | _ => false

/-- `Array.isArray(v)` on an optional property. -/
def isArrayField : Option Json → Bool
  | some (Json.arr _) => true
  | _ => false

/-- The per-entry validation predicate of `importBrushLibrary`
(`RoomContext.tsx` lines 1654-1662). -/
def isValidBrush (brush : Json) : Bool :=
  brush.truthy
    && isStringField (brush.getField ("id"))
    && isStringField (brush.getField ("name"))
    && isArrayField (brush.getField ("tiles"))
    && isNumberField (brush.getField ("width"))
    && isNumberField (brush.getField ("height"))
    && isStringField (brush.getField ("texture"))

/-- `importBrushLibrary` (`RoomContext.tsx` lines 1642-1680) after
`JSON.parse`: takes the parsed value and the current `savedBrushes` library,
returns the boolean result together with the library afterwards.  The stored
brushes are the parsed JSON entries themselves (the source casts them to
`SavedBrush` without conversion).  A `JSON.parse` exception is outside the
model; it also returns `false` and leaves the library untouched. -/
def importBrushLibrary (parsedBrushes : Json) (savedBrushes : List Json) :
    Bool × List Json :=
  match parsedBrushes with
  | Json.arr brushes =>
    let validBrushes := brushes.filter isValidBrush
    if validBrushes.length > 0 then (true, validBrushes)
    else (false, savedBrushes)
  | _ => (false, savedBrushes)

/-- The active tile size used by `applyTileBrush` and the `Canvas.tsx`
placement path (`const tileSize = 16`). -/
def tileSize : Int := 16

/-- `findIndex` on `room.layers` followed by an in-place update of the found
layer object: the first layer named `name` is replaced by `f` applied to it,
everything else is untouched (no match: no change). -/
def updateFirstLayer : List Layer → String → (Layer → Layer) → List Layer
  | [], _, _ => []
  | l :: ls, name, f =>
    if l.name == name then f l :: ls else l :: updateFirstLayer ls name f

/-- The tile upsert of `addTile`: `findIndex` on `(x, y)`, assignment of
`{x, y, index}` into the found slot, otherwise `push`. -/
def upsertTile : List Tile → Int → Int → Int → List Tile
  | [], x, y, index => [{ x := x, y := y, index := index }]
  | t :: ts, x, y, index =>
    if t.x == x && t.y == y then { x := x, y := y, index := index } :: ts
    else t :: upsertTile ts x y index

/-- `findIndex` on `(x, y)` followed by `splice(i, 1)` (or the
`filter((_, i) => i !== existingTileIndex)` form in `applyTileBrush`):
removes the first tile at the cell, no change when absent. -/
def removeFirstTile : List Tile → Int → Int → List Tile
  | [], _, _ => []
  | t :: ts, x, y =>
    if t.x == x && t.y == y then ts else t :: removeFirstTile ts x y

/-- `tiles.filter(t => !(t.x === x && t.y === y))`. -/
def removeTilesAt (tiles : List Tile) (x y : Int) : List Tile :=
  tiles.filter (fun t => !(t.x == x && t.y == y))

/-- `findIndex` on `(x, y)` followed by `tiles[i].index = index` (keeping the
other fields of the found tile), otherwise `push({x, y, index})`
(`PLACE_PREFAB` undo branch). -/
def setTileIndexAt : List Tile → Int → Int → Int → List Tile
  | [], x, y, index => [{ x := x, y := y, index := index }]
  | t :: ts, x, y, index =>
    if t.x == x && t.y == y then { t with index := index } :: ts
    else t :: setTileIndexAt ts x y index

/-- `findIndex` on `(x, y, obj_name)` followed by `splice(i, 1)` on the
instances array (`ADD_INSTANCE` undo / `REMOVE_INSTANCE` redo). -/
def removeFirstInstance : List Instance → Int → Int → String → List Instance
  | [], _, _, _ => []
  | i :: is, x, y, objName =>
    if i.x == x && i.y == y && i.obj_name == objName then is
    else i :: removeFirstInstance is x y objName

/-- `canPlaceObjectOnLayer` (`RoomContext.tsx` lines 891-894):
`layer?.type === 'object'` for the first layer with the given name. -/
def canPlaceObjectOnLayer (room : Room) (layerName : String) : Bool :=
  match room.layers.find? (fun l => l.name == layerName) with
  | some layer => layer.type == LayerType.object
  | none => false

/-- First layer with the given name and `type === 'tile'` (the guard shared
by `addTile`, `removeTile` and `applyTileBrush`). -/
def hasTileLayer (room : Room) (layerName : String) : Bool :=
  match room.layers.find? (fun l => l.name == layerName) with
  | some layer => layer.type == LayerType.tile
  | none => false

/-- `room.layers.find(l => l.name === name)`. -/
def firstLayer? (room : Room) (layerName : String) : Option Layer :=
  room.layers.find? (fun l => l.name == layerName)

/-- `addToHistory` (`RoomContext.tsx` lines 220-225): push onto the undo
stack and clear the redo stack, suppressed while replaying history. -/
def addToHistory (s : EditorState) (action : RoomAction) : EditorState :=
  if s.isUndoRedoAction then s
  else { s with undoStack := s.undoStack ++ [action], redoStack := [] }

/-- `updateRoomWithHistory` (`RoomContext.tsx` lines 228-249): record the
action with a deep copy of the current room injected as
`payload.previousRoom`, clear the redo stack, then install the new room. -/
def updateRoomWithHistory (s : EditorState) (newRoom : Room)
    (action : RoomAction) : EditorState :=
  if s.isUndoRedoAction then { s with room := newRoom }
  else
    let recorded :=
      { action with payload := { action.payload with previousRoom := some s.room } }
    { addToHistory s recorded with room := newRoom, redoStack := [] }

/-- `setRoomName` (`RoomContext.tsx` lines 276-288). -/
def setRoomName (s : EditorState) (name : String) : EditorState :=
  let newRoom :=
    { s.room with name := name, index := "@ref room(" ++ name ++ ")" }
  updateRoomWithHistory s newRoom
    ⟨ActionType.RENAME_ROOM, { name := some name },
      "Renamed room to " ++ name⟩

/-- `addInstance` (`RoomContext.tsx` lines 504-524): silent no-op when the
target layer is absent or not an object layer. -/
def addInstance (s : EditorState) (inst : Instance) : EditorState :=
  if !canPlaceObjectOnLayer s.room inst.instance_layer_name then s
  else
    let newRoom := { s.room with instances := s.room.instances ++ [inst] }
    updateRoomWithHistory s newRoom
      ⟨ActionType.ADD_INSTANCE,
        { inst := some inst, previousRoom := some s.room },
        "Added instance " ++ inst.obj_name⟩

/-- `removeInstance` (`RoomContext.tsx` lines 526-541).  With an invalid
index the source dereferences `undefined` and throws before any state
update, so the state is returned unchanged. -/
def removeInstance (s : EditorState) (index : Nat) : EditorState :=
  match s.room.instances.get? index with
  | none => s
  | some removedInstance =>
    let newRoom :=
      { s.room with instances := s.room.instances.eraseIdx index }
    updateRoomWithHistory s newRoom
      ⟨ActionType.REMOVE_INSTANCE,
        { inst := some removedInstance, index := some (Int.ofNat index) },
        "Removed instance " ++ removedInstance.obj_name⟩

/-- `addLayer` (`RoomContext.tsx` lines 543-563).  The `type`/`visible`
defaulting guards handle absent JS properties; both fields are mandatory in
the model, so `completeLayer` is the argument itself. -/
def addLayer (s : EditorState) (layer : Layer) : EditorState :=
  let completeLayer := layer
  let newRoom := { s.room with layers := s.room.layers ++ [completeLayer] }
  updateRoomWithHistory s newRoom
    ⟨ActionType.ADD_LAYER, { layer := some completeLayer },
      "Added layer " ++ layer.name⟩

/-- `removeLayer` (`RoomContext.tsx` lines 565-589): removes the layer and
cascades to the instances living on it. -/
def removeLayer (s : EditorState) (name : String) : EditorState :=
  match s.room.layers.find? (fun l => l.name == name) with
  | none => s
  | some layerToRemove =>
    let newRoom :=
      { s.room with
          layers := s.room.layers.filter (fun l => !(l.name == name)),
          instances :=
            s.room.instances.filter (fun i => !(i.instance_layer_name == name)) }
    updateRoomWithHistory s newRoom
      ⟨ActionType.REMOVE_LAYER,
        { layer := some layerToRemove,
          removedInstances :=
            some (s.room.instances.filter (fun i => i.instance_layer_name == name)) },
        "Removed layer " ++ name⟩

/-- `toggleLayerVisibility` (`RoomContext.tsx` lines 591-614); the map
touches every layer with the given name. -/
def toggleLayerVisibility (s : EditorState) (name : String) : EditorState :=
  let newLayers := s.room.layers.map (fun layer =>
    if layer.name == name then { layer with visible := !layer.visible }
    else layer)
  let newVisibility :=
    match s.room.layers.find? (fun l => l.name == name) with
    | some layer => !layer.visible
    | none => true
  let newRoom := { s.room with layers := newLayers }
  updateRoomWithHistory s newRoom
    ⟨ActionType.TOGGLE_LAYER_VISIBILITY,
      { layerName := some name, visible := some newVisibility },
      "Toggled layer " ++ name⟩

/-- `updateLayerType` (`RoomContext.tsx` lines 616-636). -/
def updateLayerType (s : EditorState) (name : String) (type : LayerType) :
    EditorState :=
  let newLayers := s.room.layers.map (fun layer =>
    if layer.name == name then { layer with type := type } else layer)
  let newRoom := { s.room with layers := newLayers }
  updateRoomWithHistory s newRoom
    ⟨ActionType.UPDATE_LAYER_TYPE,
      { layerName := some name, type := some type },
      "Changed layer type of " ++ name⟩

/-- `updateLayerTexture` (`RoomContext.tsx` lines 638-658). -/
def updateLayerTexture (s : EditorState) (name : String) (texture : String) :
    EditorState :=
  let newLayers := s.room.layers.map (fun layer =>
    if layer.name == name then { layer with texture := some texture }
    else layer)
  let newRoom := { s.room with layers := newLayers }
  updateRoomWithHistory s newRoom
    ⟨ActionType.UPDATE_LAYER_TEXTURE,
      { layerName := some name, texture := some texture },
      "Updated layer texture of " ++ name⟩

/-- `addTile` (`RoomContext.tsx` lines 664-697): upsert into the first
matching tile layer; while painting the mutation is buffered instead of
recorded. -/
def addTile (s : EditorState) (layerName : String) (x y index : Int) :
    EditorState :=
  match s.room.layers.find? (fun l => l.name == layerName) with
  | none => s
  | some layer =>
    if layer.type != LayerType.tile then s
    else
      let newRoom :=
        { s.room with
            layers := updateFirstLayer s.room.layers layerName
              (fun l => { l with tiles := upsertTile l.tiles x y index }) }
      if s.isPainting then
        { s with
            paintedTiles :=
              s.paintedTiles ++ [⟨layerName, x, y, some index⟩],
            room := newRoom }
      else
        updateRoomWithHistory s newRoom
          ⟨ActionType.ADD_TILE,
            { layerName := some layerName, x := some x, y := some y,
              index := some index },
            "Added tile at (" ++ toString x ++ ", " ++ toString y ++ ")"⟩

/-- `startPainting` (`RoomContext.tsx` lines 700-704). -/
def startPainting (s : EditorState) : EditorState :=
  { s with
      isPainting := true,
      paintedTiles := [],
      initialRoomState := some s.room }

/-- `endPainting` (`RoomContext.tsx` lines 707-732): a non-empty buffer is
committed as one `BATCH_ADD_TILES` entry whose inverse is the session's
baseline snapshot; an empty buffer just clears the session state. -/
def endPainting (s : EditorState) : EditorState :=
  if !s.isPainting || s.paintedTiles.length == 0 then
    { s with
        isPainting := false, paintedTiles := [], initialRoomState := none }
  else
    let action : RoomAction :=
      ⟨ActionType.BATCH_ADD_TILES,
        { batchedTiles := some s.paintedTiles,
          previousRoom := s.initialRoomState },
        "Added " ++ toString s.paintedTiles.length ++ " tiles"⟩
    { addToHistory s action with
        isPainting := false, paintedTiles := [], initialRoomState := none }

/-- `removeTile` (`RoomContext.tsx` lines 734-779).  While painting the
removal is buffered before the layer guard runs; outside painting a missing
tile is a silent no-op. -/
def removeTile (s : EditorState) (layerName : String) (x y : Int) :
    EditorState :=
  if s.isPainting then
    let newPainted := s.paintedTiles ++ [⟨layerName, x, y, none⟩]
    let newRoom :=
      match s.room.layers.find? (fun l => l.name == layerName) with
      | none => s.room
      | some layer =>
        if layer.type != LayerType.tile then s.room
        else
          { s.room with
              layers := updateFirstLayer s.room.layers layerName
                (fun l => { l with tiles := removeTilesAt l.tiles x y }) }
    { s with paintedTiles := newPainted, room := newRoom }
  else
    match s.room.layers.find? (fun l => l.name == layerName) with
    | none => s
    | some layer =>
      if layer.type != LayerType.tile then s
      else
        match layer.tiles.findIdx? (fun t => t.x == x && t.y == y) with
        | none => s
        | some _ =>
          let newRoom :=
            { s.room with
                layers := updateFirstLayer s.room.layers layerName
                  (fun l => { l with tiles := removeFirstTile l.tiles x y }) }
          updateRoomWithHistory s newRoom
            ⟨ActionType.REMOVE_TILE,
              { layerName := some layerName, x := some x, y := some y,
                previousRoom := some s.room },
              "Removed tile at (" ++ toString x ++ ", " ++ toString y ++ ")"⟩

/-- `updateRoomSize` (`RoomContext.tsx` lines 781-851): sets the new bounds,
prunes out-of-bounds tiles on layers whose `type === 'tile'` and
out-of-bounds instances, and records the action directly through
`addToHistory` with the prior room as `previousRoom`.  The mirror write into
the active tab's stack and the localStorage auto-save are external to the
model. -/
def updateRoomSize (s : EditorState) (width height : Int) : EditorState :=
  let newLayers := s.room.layers.map (fun layer =>
    if layer.type == LayerType.tile then
      { layer with
          tiles := layer.tiles.filter (fun tile =>
            decide (tile.x < width ∧ tile.y < height ∧ 0 ≤ tile.x ∧ 0 ≤ tile.y)) }
    else layer)
  let newInstances := s.room.instances.filter (fun inst =>
    decide (inst.x < width ∧ inst.y < height ∧ 0 ≤ inst.x ∧ 0 ≤ inst.y))
  let newRoom :=
    { s.room with
        width := width, height := height,
        layers := newLayers, instances := newInstances }
  let action : RoomAction :=
    ⟨ActionType.UPDATE_ROOM_SIZE,
      { width := some width, height := some height,
        previousWidth := some s.room.width,
        previousHeight := some s.room.height,
        previousRoom := some s.room },
      "Changed room size to " ++ toString width ++ "x" ++ toString height⟩
  { addToHistory s action with room := newRoom }

/-- `updateRoomType` (`RoomContext.tsx` lines 853-866). -/
def updateRoomType (s : EditorState) (type : Option String) : EditorState :=
  updateRoomWithHistory s { s.room with type := type }
    ⟨ActionType.UPDATE_ROOM_TYPE, { previousType := some s.room.type },
      "Updated room type"⟩

/-- `updateRoomBiome` (`RoomContext.tsx` lines 868-881). -/
def updateRoomBiome (s : EditorState) (biome : Option String) : EditorState :=
  updateRoomWithHistory s { s.room with biome := biome }
    ⟨ActionType.UPDATE_ROOM_BIOME, { previousBiome := some s.room.biome },
      "Updated room biome"⟩

/-- `updateRoomChance` (`RoomContext.tsx` lines 883-888): a bare `setRoom`
with the replaced field — no history recording of any kind. -/
def updateRoomChance (s : EditorState) (chance : Option Int) : EditorState :=
  { s with room := { s.room with chance := chance } }

/-- The per-brush-tile loop of `applyTileBrush` (`RoomContext.tsx` lines
974-1005), folded over the brush tiles while threading the target layer's
tile list and the `batchedTiles` undo record.  `Math.round(brushTile.x *
tileSize)` is exact on the model's integer grid coordinates. -/
def brushStep (roomWidth roomHeight : Int) (layerName : String) (x y : Int)
    (acc : List Tile × List BatchedTile) (brushTile : Tile) :
    List Tile × List BatchedTile :=
  let tileX := x + brushTile.x * tileSize
  let tileY := y + brushTile.y * tileSize
  if tileX < 0 ∨ tileY < 0 ∨ tileX ≥ roomWidth ∨ tileY ≥ roomHeight then acc
  else
    let existing := acc.1.find? (fun t => t.x == tileX && t.y == tileY)
    let entry : BatchedTile :=
      ⟨layerName, tileX, tileY, existing.map Tile.index⟩
    (removeFirstTile acc.1 tileX tileY
        ++ [{ x := tileX, y := tileY, index := brushTile.index }],
      acc.2 ++ [entry])

/-- The whole `tileBrush.tiles.forEach` loop of `applyTileBrush`: fold
`brushStep` over the brush tiles, starting from the target layer's tiles
and an empty batch record. -/
def applyBrushTiles (roomWidth roomHeight : Int) (layerName : String)
    (x y : Int) (brushTiles : List Tile) (tiles0 : List Tile) :
    List Tile × List BatchedTile :=
  brushTiles.foldl (brushStep roomWidth roomHeight layerName x y) (tiles0, [])

/-- `applyTileBrush` (`RoomContext.tsx` lines 952-1032): stamps the active
brush onto the first matching tile layer; outside a paint session the batch
is recorded as one `BATCH_ADD_TILES` entry whose inverse is the full prior
room snapshot. -/
def applyTileBrush (s : EditorState) (layerName : String) (x y : Int) :
    EditorState :=
  match s.tileBrush with
  | none => s
  | some tileBrush =>
    match s.room.layers.findIdx? (fun l => l.name == layerName) with
    | none => s
    | some layerIndex =>
      match s.room.layers.get? layerIndex with
      | none => s
      | some targetLayer =>
        if targetLayer.type != LayerType.tile then s
        else
          let initialRoomState := s.room
          let result := applyBrushTiles s.room.width s.room.height layerName
            x y tileBrush.tiles targetLayer.tiles
          let newRoom :=
            { s.room with
                layers := s.room.layers.set layerIndex
                  { targetLayer with tiles := result.1 } }
          if s.isPainting then
            { s with
                paintedTiles := s.paintedTiles ++ result.2, room := newRoom }
          else
            let action : RoomAction :=
              ⟨ActionType.BATCH_ADD_TILES,
                { batchedTiles := some result.2,
                  previousRoom := some initialRoomState },
                "Applied tile brush at (" ++ toString x ++ ", "
                  ++ toString y ++ ")"⟩
            { addToHistory s action with room := newRoom }

/-- Grid snapping of the `Canvas.tsx` brush-placement path
(`Math.floor(x / tileSize) * tileSize`, lines 174-175). -/
def snapToLowerGrid (v tileSize : Int) : Int := v.fdiv tileSize * tileSize

/-- The brush's top-left pixel anchor (`Canvas.tsx` lines 174-180):
snapped cursor minus `offset * tileSize`. -/
def brushTopLeft (cursor tileSize offset : Int) : Int :=
  snapToLowerGrid cursor tileSize - offset * tileSize

/-- The `if (tileBrush)` branch of `placeTile` in `Canvas.tsx` (lines
168-192): compute the top-left anchor from the cursor and hand it to
`applyTileBrush`. -/
def placeTileWithBrush (s : EditorState) (layerName : String) (x y : Int) :
    EditorState :=
  match s.tileBrush with
  | none => s
  | some tileBrush =>
    applyTileBrush s layerName
      (brushTopLeft x tileSize tileBrush.offsetX)
      (brushTopLeft y tileSize tileBrush.offsetY)

/-- Replay of a `batchedTiles` array (redo of `BATCH_ADD_TILES`,
`RoomContext.tsx` lines 1503-1529): per entry, drop every tile at the cell
on the first layer with the entry's name and re-add one when `index` is not
null. -/
def applyBatchedTiles (layers : List Layer) (entries : List BatchedTile) :
    List Layer :=
  entries.foldl (fun layers entry =>
    updateFirstLayer layers entry.layerName (fun l =>
      { l with
          tiles := removeTilesAt l.tiles entry.x entry.y
            ++ (match entry.index with
                | some index => [{ x := entry.x, y := entry.y, index := index }]
                | none => []) })) layers

/-- Replay of `tilesBeforePlacement` (undo of `PLACE_PREFAB`,
`RoomContext.tsx` lines 1184-1219): null restores by deletion, otherwise
update the existing tile's index in place or push the tile back. -/
def restoreTilesBeforePlacement (layers : List Layer)
    (entries : List BatchedTile) : List Layer :=
  entries.foldl (fun layers entry =>
    updateFirstLayer layers entry.layerName (fun l =>
      { l with
          tiles :=
            match entry.index with
            | none => removeTilesAt l.tiles entry.x entry.y
            | some index => setTileIndexAt l.tiles entry.x entry.y index }))
    layers

/-- The JS truthiness guard `if (layerName && ...)` on an optional string
payload field. -/
def truthyStr : Option String → Bool
  | some s => !(s == "")
  | none => false

/-- The `switch` of `undo` (`RoomContext.tsx` lines 1059-1286), reached only
when the entry carries no `previousRoom` snapshot; it only ever computes a
replacement room from the current one. -/
def undoSwitch (action : RoomAction) (room : Room) : Room :=
  match action.type with
  | ActionType.ADD_INSTANCE =>
    match action.payload.inst with
    | some inst =>
      { room with
          instances :=
            removeFirstInstance room.instances inst.x inst.y inst.obj_name }
    | none => room
  | ActionType.REMOVE_INSTANCE =>
    match action.payload.inst with
    | some inst =>
      if canPlaceObjectOnLayer room inst.instance_layer_name then
        { room with instances := room.instances ++ [inst] }
      else room
    | none => room
  | ActionType.ADD_LAYER =>
    match action.payload.layer with
    | some layer =>
      { room with
          layers := room.layers.filter (fun l => !(l.name == layer.name)),
          instances := room.instances.filter
            (fun i => !(i.instance_layer_name == layer.name)) }
    | none => room
  | ActionType.REMOVE_LAYER =>
    match action.payload.layer with
    | some layer =>
      { room with
          layers := room.layers ++ [layer],
          instances :=
            room.instances ++ (action.payload.removedInstances.getD []) }
    | none => room
  | ActionType.ADD_TILE =>
    match action.payload.layerName, action.payload.x, action.payload.y with
    | some layerName, some x, some y =>
      if layerName == "" then room
      else
        { room with
            layers := updateFirstLayer room.layers layerName
              (fun l => { l with tiles := removeTilesAt l.tiles x y }) }
    | _, _, _ => room
  | ActionType.REMOVE_TILE =>
    match action.payload.layerName, action.payload.x, action.payload.y,
        action.payload.removedTile with
    | some layerName, some x, some y, some removedTile =>
      if layerName == "" then room
      else
        { room with
            layers := updateFirstLayer room.layers layerName
              (fun l =>
                { l with
                    tiles := l.tiles
                      ++ [{ x := x, y := y, index := removedTile.index }] }) }
    | _, _, _, _ => room
  | ActionType.PLACE_PREFAB =>
    match action.payload.tilesBeforePlacement with
    | some entries =>
      { room with layers := restoreTilesBeforePlacement room.layers entries }
    | none => room
  | ActionType.UPDATE_ROOM_TYPE =>
    { room with type := action.payload.previousType.getD none }
  | ActionType.UPDATE_ROOM_BIOME =>
    { room with biome := action.payload.previousBiome.getD none }
  | ActionType.APPLY_TILE_BRUSH =>
    match action.payload.layerName, action.payload.tilesBefore with
    | some layerName, some tilesBefore =>
      if truthyStr (some layerName) then
        { room with
            layers := updateFirstLayer room.layers layerName
              (fun l => { l with tiles := tilesBefore }) }
      else room
    | _, _ => room
  | ActionType.BATCH_ADD_TILES =>
    match action.payload.previousRoom with
    | some previousRoom => previousRoom
    | none => room
  | ActionType.BATCH_REMOVE_TILES =>
    match action.payload.previousRoom with
    | some previousRoom => previousRoom
    | none => room
  | _ => room

/-- The two-pass `tilesModified` replay of the `APPLY_TILE_BRUSH` redo
fallback (`RoomContext.tsx` lines 1480-1491). -/
def redoTilesModified (tiles : List Tile) (mods : List TileMod) : List Tile :=
  let cleared := mods.foldl (fun ts m => removeTilesAt ts m.x m.y) tiles
  mods.foldl (fun ts m =>
    match m.prevIndex with
    | some index => ts ++ [{ x := m.x, y := m.y, index := index }]
    | none => ts) cleared

/-- The `switch` of `redo` (`RoomContext.tsx` lines 1304-1530).  Action
types without a case (rename, visibility, layer type/texture, room size,
prefab, batch-remove) leave the room untouched. -/
def redoSwitch (action : RoomAction) (room : Room) : Room :=
  match action.type with
  | ActionType.ADD_INSTANCE =>
    match action.payload.inst with
    | some inst =>
      if canPlaceObjectOnLayer room inst.instance_layer_name then
        { room with instances := room.instances ++ [inst] }
      else room
    | none => room
  | ActionType.REMOVE_INSTANCE =>
    match action.payload.inst with
    | some inst =>
      { room with
          instances :=
            removeFirstInstance room.instances inst.x inst.y inst.obj_name }
    | none => room
  | ActionType.ADD_LAYER =>
    match action.payload.layer with
    | some layer => { room with layers := room.layers ++ [layer] }
    | none => room
  | ActionType.REMOVE_LAYER =>
    match action.payload.layer with
    | some layer =>
      { room with
          layers := room.layers.filter (fun l => !(l.name == layer.name)),
          instances := room.instances.filter
            (fun i => !(i.instance_layer_name == layer.name)) }
    | none => room
  | ActionType.ADD_TILE =>
    match action.payload.layerName, action.payload.x, action.payload.y,
        action.payload.tileIndex with
    | some layerName, some x, some y, some tileIndex =>
      if layerName == "" then room
      else
        { room with
            layers := updateFirstLayer room.layers layerName
              (fun l =>
                { l with
                    tiles := removeTilesAt l.tiles x y
                      ++ [{ x := x, y := y, index := tileIndex }] }) }
    | _, _, _, _ => room
  | ActionType.REMOVE_TILE =>
    match action.payload.layerName, action.payload.x, action.payload.y,
        action.payload.removedTile with
    | some layerName, some x, some y, some _ =>
      if layerName == "" then room
      else
        { room with
            layers := updateFirstLayer room.layers layerName
              (fun l => { l with tiles := removeTilesAt l.tiles x y }) }
    | _, _, _, _ => room
  | ActionType.UPDATE_ROOM_TYPE =>
    match action.payload.previousRoom with
    | some previousRoom => previousRoom
    | none =>
      -- The fallback assigns `payload.type`, which no `UPDATE_ROOM_TYPE`
      -- entry ever carries (the payload's `type` key is only written by
      -- `updateLayerType`), so the room's type becomes `undefined`.
      { room with type := none }
  | ActionType.UPDATE_ROOM_BIOME =>
    match action.payload.previousRoom with
    | some previousRoom => previousRoom
    | none => { room with biome := action.payload.biome }
  | ActionType.APPLY_TILE_BRUSH =>
    match action.payload.previousRoom with
    | some previousRoom => previousRoom
    | none =>
      match action.payload.layerName, action.payload.tilesModified with
      | some layerName, some mods =>
        if truthyStr (some layerName) then
          { room with
              layers := updateFirstLayer room.layers layerName
                (fun l => { l with tiles := redoTilesModified l.tiles mods }) }
        else room
      | _, _ => room
  | ActionType.BATCH_ADD_TILES =>
    match action.payload.batchedTiles with
    | some entries => { room with layers := applyBatchedTiles room.layers entries }
    | none => room
  | _ => room

/-- `undo` (`RoomContext.tsx` lines 1035-1294): pop the top undo entry,
restore its `previousRoom` snapshot when present (falling back to the
per-action inverse logic otherwise) and move the entry to the redo stack.
The transient `isUndoRedoAction` flag is set and then reset by a
`setTimeout(..., 0)` before the next event, so it is unchanged here. -/
def undo (s : EditorState) : EditorState :=
  match s.undoStack.getLast? with
  | none => s
  | some lastUndoAction =>
    let newRoom :=
      match lastUndoAction.payload.previousRoom with
      | some previousRoom => previousRoom
      | none => undoSwitch lastUndoAction s.room
    { s with
        room := newRoom,
        redoStack := s.redoStack ++ [lastUndoAction],
        undoStack := s.undoStack.dropLast }

/-- `redo` (`RoomContext.tsx` lines 1297-1537): pop the top redo entry,
re-apply the per-action forward logic and move the entry back onto the undo
stack. -/
def redo (s : EditorState) : EditorState :=
  match s.redoStack.getLast? with
  | none => s
  | some lastRedoAction =>
    { s with
        room := redoSwitch lastRedoAction s.room,
        redoStack := s.redoStack.dropLast,
        undoStack := s.undoStack ++ [lastRedoAction] }

/-- `n` successive `undo()` calls. -/
def undoN : Nat → EditorState → EditorState
  | 0, s => s
  | n + 1, s => undoN n (undo s)

/-- The closed set of mutation commands exposed by the context (§4.1 of the
spec), as first-class syntax so that command sequences can be quantified
over.  Paint-session control (`startPainting`/`endPainting`) and the pure
setters (`setRoom`, `setTileBrush`, tab switching) are not mutation
commands. -/
inductive Cmd where
  | setRoomName (name : String)
  | addInstance (inst : Instance)
  | removeInstance (index : Nat)
  | addLayer (layer : Layer)
  | removeLayer (name : String)
  | toggleLayerVisibility (name : String)
  | updateLayerType (name : String) (type : LayerType)
  | updateLayerTexture (name : String) (texture : String)
  | addTile (layerName : String) (x y index : Int)
  | removeTile (layerName : String) (x y : Int)
  | updateRoomSize (width height : Int)
  | updateRoomType (type : Option String)
  | updateRoomBiome (biome : Option String)
  | updateRoomChance (chance : Option Int)
  | applyTileBrush (layerName : String) (x y : Int)
  deriving DecidableEq, Repr

/-- Dispatch a command to its context function. -/
def applyCmd : Cmd → EditorState → EditorState
  | Cmd.setRoomName name, s => setRoomName s name
  | Cmd.addInstance inst, s => addInstance s inst
  | Cmd.removeInstance index, s => removeInstance s index
  | Cmd.addLayer layer, s => addLayer s layer
  | Cmd.removeLayer name, s => removeLayer s name
  | Cmd.toggleLayerVisibility name, s => toggleLayerVisibility s name
  | Cmd.updateLayerType name type, s => updateLayerType s name type
  | Cmd.updateLayerTexture name texture, s => updateLayerTexture s name texture
  | Cmd.addTile layerName x y index, s => addTile s layerName x y index
  | Cmd.removeTile layerName x y, s => removeTile s layerName x y
  | Cmd.updateRoomSize width height, s => updateRoomSize s width height
  | Cmd.updateRoomType type, s => updateRoomType s type
  | Cmd.updateRoomBiome biome, s => updateRoomBiome s biome
  | Cmd.updateRoomChance chance, s => updateRoomChance s chance
  | Cmd.applyTileBrush layerName x y, s => applyTileBrush s layerName x y

/-- Apply a command sequence left to right. -/
def applyCmds (cmds : List Cmd) (s : EditorState) : EditorState :=
  cmds.foldl (fun s c => applyCmd c s) s

/-- Commands that go through the history-recording paths; `updateRoomChance`
is the lone exception (it is a bare `setRoom`). -/
def recordsHistory : Cmd → Bool
  | Cmd.updateRoomChance _ => false
  | _ => true

/-- The tile add/remove events delivered during one paint stroke. -/
inductive PaintOp where
  | add (layerName : String) (x y index : Int)
  | remove (layerName : String) (x y : Int)
  deriving DecidableEq, Repr

/-- Dispatch one buffered paint event. -/
def applyPaintOp (s : EditorState) : PaintOp → EditorState
  | PaintOp.add layerName x y index => addTile s layerName x y index
  | PaintOp.remove layerName x y => removeTile s layerName x y

/-- Apply a stroke's events in delivery order. -/
def applyPaintOps (ops : List PaintOp) (s : EditorState) : EditorState :=
  ops.foldl applyPaintOp s

/-- A paint event that actually lands in the session buffer: adds need an
existing tile layer, removals are buffered unconditionally. -/
def paintOpOk (room : Room) : PaintOp → Bool
  | PaintOp.add layerName _ _ _ => hasTileLayer room layerName
  | PaintOp.remove _ _ _ => true

/-- One full paint session: start, deliver the stroke's events, end. -/
def paintSession (s : EditorState) (ops : List PaintOp) : EditorState :=
  endPainting (applyPaintOps ops (startPainting s))

/-- At most one tile per `(x, y)` cell within one layer's tile list. -/
def LayerInv (l : Layer) : Prop :=
  l.tiles.Pairwise (fun a b => ¬(a.x = b.x ∧ a.y = b.y))

/-- The §3 occupancy invariant: every layer of the room satisfies
`LayerInv`. -/
def RoomInv (room : Room) : Prop :=
  ∀ l ∈ room.layers, LayerInv l

/-- Well-formedness of a command's own parameters: a layer handed to
`addLayer` must itself satisfy the occupancy invariant (the engine appends
it verbatim); every other command carries no tile lists. -/
def CmdOk : Cmd → Prop
  | Cmd.addLayer layer => LayerInv layer
  | _ => True

/-- A fresh editing session (a new tab's state) holding the given room. -/
def initialEditorState (room : Room) : EditorState :=
  { room := room
    undoStack := []
    redoStack := []
    isUndoRedoAction := false
    isPainting := false
    paintedTiles := []
    initialRoomState := none
    tileBrush := none }

/-- An empty 800×600 room with one tile layer named Ground, used as the
concrete test fixture (§8's example scenario shape). -/
def groundRoom : Room :=
  { instances := []
    layers :=
      [{ name := "Ground", depth := 0, type := LayerType.tile,
         visible := true, tiles := [], texture := some ("tileset_forest") }]
    width := 800
    height := 600
    name := "New Room"
    index := "@ref room(New Room)"
    chance := some 100 }

/-- `groundRoom` in a fresh session. -/
def groundState : EditorState := initialEditorState groundRoom

/-- The 2×2 brush that `copySelectionToBrush` derives from a 2×2 selection
of 4 tiles: grid-relative cells (0,0),(1,0),(0,1),(1,1) and the default
center hot-spot `(floor(2/2), floor(2/2)) = (1,1)`. -/
def brush2x2 : TileBrush :=
  { tiles :=
      [{ x := 0, y := 0, index := 5 }, { x := 1, y := 0, index := 6 },
       { x := 0, y := 1, index := 7 }, { x := 1, y := 1, index := 8 }]
    width := 2
    height := 2
    texture := "tileset_forest"
    offsetX := 1
    offsetY := 1 }

/-- `groundState` with `brush2x2` active. -/
def brushState : EditorState := { groundState with tileBrush := some brush2x2 }

/-- A room whose only layer is an object layer still carrying a stale tile
at (1000, 1000) — reachable by painting on a tile layer and then retyping it
with `updateLayerType`. -/
def staleObjectLayerRoom : Room :=
  { instances := []
    layers :=
      [{ name := "Objects", depth := 100, type := LayerType.object,
         visible := true, tiles := [{ x := 1000, y := 1000, index := 3 }] }]
    width := 2000
    height := 2000
    name := "Stale"
    index := "@ref room(Stale)" }

/-! ### History-engine lemmas -/

lemma addToHistory_not_replaying (s : EditorState) (a : RoomAction)
    (h : s.isUndoRedoAction = false) :
    addToHistory s a = { s with undoStack := s.undoStack ++ [a], redoStack := [] } := by
  simp [addToHistory, h]

lemma updateRoomWithHistory_not_replaying (s : EditorState) (newRoom : Room)
    (action : RoomAction) (h : s.isUndoRedoAction = false) :
    updateRoomWithHistory s newRoom action =
      { s with
          room := newRoom,
          undoStack := s.undoStack
            ++ [{ action with
                    payload :=
                      { action.payload with previousRoom := some s.room } }],
          redoStack := [] } := by
  simp [updateRoomWithHistory, addToHistory, h]

lemma undo_emptyStack (s : EditorState) (h : s.undoStack = []) : undo s = s := by
  simp [undo, h]

lemma undo_concat (s : EditorState) (us : List RoomAction) (e : RoomAction)
    (h : s.undoStack = us ++ [e]) :
    undo s =
      { s with
          room :=
            match e.payload.previousRoom with
            | some previousRoom => previousRoom
            | none => undoSwitch e s.room,
          redoStack := s.redoStack ++ [e],
          undoStack := us } := by
  simp [undo, h]

lemma redo_concat (s : EditorState) (rs : List RoomAction) (e : RoomAction)
    (h : s.redoStack = rs ++ [e]) :
    redo s =
      { s with
          room := redoSwitch e s.room,
          redoStack := rs,
          undoStack := s.undoStack ++ [e] } := by
  simp [redo, h]

/-- Every history-recording command either leaves the whole editor state
untouched (its silent no-op guards) or pushes exactly one entry carrying the
prior room as its `previousRoom` inverse while clearing the redo stack. -/
lemma applyCmd_cases (c : Cmd) (s : EditorState)
    (hflag : s.isUndoRedoAction = false) (hpaint : s.isPainting = false)
    (hrec : recordsHistory c = true) :
    applyCmd c s = s ∨
    ∃ (e : RoomAction) (r : Room),
      e.payload.previousRoom = some s.room ∧
      applyCmd c s =
        { s with room := r, undoStack := s.undoStack ++ [e], redoStack := [] } := by
  cases c with
  | setRoomName name =>
    right
    simp only [applyCmd, RoomEditor.setRoomName,
      updateRoomWithHistory_not_replaying _ _ _ hflag]
    exact ⟨_, _, rfl, rfl⟩
  | addInstance inst =>
    by_cases hc : canPlaceObjectOnLayer s.room inst.instance_layer_name = true
    · right
      simp only [applyCmd, RoomEditor.addInstance, hc, Bool.not_true,
        Bool.false_eq_true, if_false, updateRoomWithHistory_not_replaying _ _ _ hflag]
      exact ⟨_, _, rfl, rfl⟩
    · left
      have hc' : canPlaceObjectOnLayer s.room inst.instance_layer_name = false :=
        Bool.eq_false_iff.mpr hc
      simp [applyCmd, RoomEditor.addInstance, hc']
  | removeInstance index =>
    cases hg : s.room.instances[index]? with
    | none => left; simp [applyCmd, RoomEditor.removeInstance, hg]
    | some inst =>
      right
      simp only [applyCmd, RoomEditor.removeInstance, List.get?_eq_getElem?,
        hg, updateRoomWithHistory_not_replaying _ _ _ hflag]
      exact ⟨_, _, rfl, rfl⟩
  | addLayer layer =>
    right
    simp only [applyCmd, RoomEditor.addLayer,
      updateRoomWithHistory_not_replaying _ _ _ hflag]
    exact ⟨_, _, rfl, rfl⟩
  | removeLayer name =>
    cases hf : s.room.layers.find? (fun l => l.name == name) with
    | none => left; simp [applyCmd, RoomEditor.removeLayer, hf]
    | some layer =>
      right
      simp only [applyCmd, RoomEditor.removeLayer, hf,
        updateRoomWithHistory_not_replaying _ _ _ hflag]
      exact ⟨_, _, rfl, rfl⟩
  | toggleLayerVisibility name =>
    right
    simp only [applyCmd, RoomEditor.toggleLayerVisibility,
      updateRoomWithHistory_not_replaying _ _ _ hflag]
    exact ⟨_, _, rfl, rfl⟩
  | updateLayerType name type =>
    right
    simp only [applyCmd, RoomEditor.updateLayerType,
      updateRoomWithHistory_not_replaying _ _ _ hflag]
    exact ⟨_, _, rfl, rfl⟩
  | updateLayerTexture name texture =>
    right
    simp only [applyCmd, RoomEditor.updateLayerTexture,
      updateRoomWithHistory_not_replaying _ _ _ hflag]
    exact ⟨_, _, rfl, rfl⟩
  | addTile layerName x y index =>
    cases hf : s.room.layers.find? (fun l => l.name == layerName) with
    | none => left; simp [applyCmd, RoomEditor.addTile, hf]
    | some layer =>
      by_cases ht : layer.type = LayerType.tile
      · right
        simp only [applyCmd, RoomEditor.addTile, hf, ht, bne_self_eq_false,
          Bool.false_eq_true, if_false, hpaint,
          updateRoomWithHistory_not_replaying _ _ _ hflag]
        exact ⟨_, _, rfl, rfl⟩
      · left
        have ht' : (layer.type != LayerType.tile) = true := by
          simp [bne_iff_ne, ht]
        simp [applyCmd, RoomEditor.addTile, hf, ht']
  | removeTile layerName x y =>
    cases hf : s.room.layers.find? (fun l => l.name == layerName) with
    | none => left; simp [applyCmd, RoomEditor.removeTile, hpaint, hf]
    | some layer =>
      by_cases ht : layer.type = LayerType.tile
      · cases hi : layer.tiles.findIdx? (fun t => t.x == x && t.y == y) with
        | none =>
          left
          simp [applyCmd, RoomEditor.removeTile, hpaint, hf, ht, hi]
        | some i =>
          right
          simp only [applyCmd, RoomEditor.removeTile, hpaint,
            Bool.false_eq_true, if_false, hf, ht, bne_self_eq_false, hi,
            updateRoomWithHistory_not_replaying _ _ _ hflag]
          exact ⟨_, _, rfl, rfl⟩
      · left
        have ht' : (layer.type != LayerType.tile) = true := by
          simp [bne_iff_ne, ht]
        simp [applyCmd, RoomEditor.removeTile, hpaint, hf, ht']
  | updateRoomSize width height =>
    right
    simp only [applyCmd, RoomEditor.updateRoomSize,
      addToHistory_not_replaying _ _ hflag]
    exact ⟨_, _, rfl, rfl⟩
  | updateRoomType type =>
    right
    simp only [applyCmd, RoomEditor.updateRoomType,
      updateRoomWithHistory_not_replaying _ _ _ hflag]
    exact ⟨_, _, rfl, rfl⟩
  | updateRoomBiome biome =>
    right
    simp only [applyCmd, RoomEditor.updateRoomBiome,
      updateRoomWithHistory_not_replaying _ _ _ hflag]
    exact ⟨_, _, rfl, rfl⟩
  | updateRoomChance chance => simp [recordsHistory] at hrec
  | applyTileBrush layerName x y =>
    cases hb : s.tileBrush with
    | none => left; simp [applyCmd, RoomEditor.applyTileBrush, hb]
    | some tileBrush =>
      cases hf : s.room.layers.findIdx? (fun l => l.name == layerName) with
      | none => left; simp [applyCmd, RoomEditor.applyTileBrush, hb, hf]
      | some layerIndex =>
        cases hg : s.room.layers[layerIndex]? with
        | none => left; simp [applyCmd, RoomEditor.applyTileBrush, hb, hf, hg]
        | some targetLayer =>
          by_cases ht : targetLayer.type = LayerType.tile
          · right
            simp only [applyCmd, RoomEditor.applyTileBrush,
              List.get?_eq_getElem?, hb, hf, hg, ht, bne_self_eq_false,
              Bool.false_eq_true, if_false, hpaint,
              addToHistory_not_replaying _ _ hflag]
            exact ⟨_, _, rfl, rfl⟩
          · left
            have ht' : (targetLayer.type != LayerType.tile) = true := by
              simp [bne_iff_ne, ht]
            simp [applyCmd, RoomEditor.applyTileBrush, hb, hf, hg, ht']

/-- Applying a sequence of history-recording commands grows the undo stack
by at most one entry per command; the bottom-most new entry (if any) carries
the starting room as its inverse snapshot, and if nothing was recorded the
room is unchanged. -/
lemma applyCmds_spec : ∀ (cmds : List Cmd) (s : EditorState),
    s.isUndoRedoAction = false → s.isPainting = false →
    (∀ c ∈ cmds, recordsHistory c = true) →
    ∃ delta : List RoomAction,
      (applyCmds cmds s).undoStack = s.undoStack ++ delta ∧
      delta.length ≤ cmds.length ∧
      (applyCmds cmds s).isUndoRedoAction = false ∧
      (applyCmds cmds s).isPainting = false ∧
      (delta = [] → (applyCmds cmds s).room = s.room) ∧
      (∀ e, delta.head? = some e → e.payload.previousRoom = some s.room) := by
  intro cmds
  induction cmds with
  | nil =>
    intro s hflag hpaint _
    exact ⟨[], by simp [applyCmds], by simp, hflag, hpaint, fun _ => rfl,
      fun e he => by simp at he⟩
  | cons c cs ih =>
    intro s hflag hpaint hrec
    have hstep : applyCmds (c :: cs) s = applyCmds cs (applyCmd c s) := by
      simp [applyCmds, List.foldl_cons]
    rcases applyCmd_cases c s hflag hpaint (hrec c (List.mem_cons_self c cs)) with
      hid | ⟨e, r, hprev, heq⟩
    · rw [hstep, hid]
      obtain ⟨delta, h1, h2, h3, h4, h5, h6⟩ :=
        ih s hflag hpaint (fun c' hc' => hrec c' (List.mem_cons_of_mem c hc'))
      exact ⟨delta, h1, Nat.le_succ_of_le h2, h3, h4, h5, h6⟩
    · rw [hstep, heq]
      obtain ⟨delta, h1, h2, h3, h4, h5, h6⟩ :=
        ih { s with room := r, undoStack := s.undoStack ++ [e], redoStack := [] }
          (by simp [hflag]) (by simp [hpaint])
          (fun c' hc' => hrec c' (List.mem_cons_of_mem c hc'))
      refine ⟨e :: delta, ?_, ?_, h3, h4, ?_, ?_⟩
      · rw [h1]; simp
      · simpa using Nat.succ_le_succ h2
      · intro hcontra; cases hcontra
      · intro e' he'
        simp only [List.head?_cons, Option.some.injEq] at he'
        rw [← he']
        exact hprev

/-- Undoing at least as many times as there are freshly recorded entries
pops them all; the final pop restores the bottom entry's `previousRoom`
snapshot, and further undos on the emptied stack are no-ops. -/
lemma undoN_spec : ∀ (n : Nat) (s : EditorState) (delta : List RoomAction)
    (r0 : Room),
    s.undoStack = delta → delta.length ≤ n →
    (delta = [] → s.room = r0) →
    (∀ e, delta.head? = some e → e.payload.previousRoom = some r0) →
    (undoN n s).room = r0 := by
  intro n
  induction n with
  | zero =>
    intro s delta r0 hstack hlen hnil _
    have : delta = [] := List.eq_nil_of_length_eq_zero (Nat.le_zero.mp hlen)
    exact hnil this
  | succ n ih =>
    intro s delta r0 hstack hlen hnil hhead
    rcases List.eq_nil_or_concat delta with hd | ⟨init, last, hd⟩
    · subst hd
      have hundo : undo s = s := undo_emptyStack s hstack
      show (undoN n (undo s)).room = r0
      rw [hundo]
      exact ih s [] r0 hstack (Nat.zero_le n) hnil hhead
    · subst hd
      rw [List.concat_eq_append] at hstack hlen hhead
      have hundo := undo_concat s init last hstack
      show (undoN n (undo s)).room = r0
      cases init with
      | nil =>
        have hlast : last.payload.previousRoom = some r0 :=
          hhead last (by simp)
        rw [hundo]
        refine ih _ [] r0 (by simp) (Nat.zero_le n) ?_ (fun e he => by simp at he)
        intro _
        simp [hlast]
      | cons i0 irest =>
        rw [hundo]
        refine ih _ (i0 :: irest) r0 (by simp) ?_ (fun hcontra => by cases hcontra) ?_
        · have := hlen
          simp only [List.length_append, List.length_singleton] at this
          omega
        · intro e he
          apply hhead
          simpa using he

/-! ### Claim C1 -/

/-- C1: the claim fails on the code.  `redo` of an `UPDATE_ROOM_TYPE` entry
restores `payload.previousRoom` — the snapshot taken *before* the command —
so `undo(); redo()` lands on the pre-command room: after
`updateRoomType(groundState, "cave")` the pre-undo room has
`type = "cave"`, but undo-then-redo yields `type = undefined`, a room that
is not structurally equal to the pre-undo room. -/
theorem undoRedo_updateRoomType_divergence :
    (redo (undo (updateRoomType groundState (some ("cave"))))).room.type = none ∧
    (updateRoomType groundState (some ("cave"))).room.type = some ("cave") ∧
    (redo (undo (updateRoomType groundState (some ("cave"))))).room ≠
      (updateRoomType groundState (some ("cave"))).room := by
  refine ⟨rfl, rfl, ?_⟩
  decide

/-! ### Claim C2 -/

/-- C2 (amended): for every sequence of history-recording mutation commands
(the closed command set without `updateRoomChance`) applied to a room in a
fresh session (empty undo stack, not replaying, not painting), undoing n
times restores the room the sequence started from. -/
theorem fullUndo_restores_initialRoom (cmds : List Cmd) (s : EditorState)
    (hstack : s.undoStack = [])
    (hflag : s.isUndoRedoAction = false)
    (hpaint : s.isPainting = false)
    (hrec : ∀ c ∈ cmds, recordsHistory c = true) :
    (undoN cmds.length (applyCmds cmds s)).room = s.room := by
  obtain ⟨delta, h1, h2, _, _, h5, h6⟩ := applyCmds_spec cmds s hflag hpaint hrec
  refine undoN_spec cmds.length (applyCmds cmds s) delta s.room ?_ h2 h5 h6
  rw [h1, hstack]
  simp

/-- Witness for C2's amended theorem on a concrete two-command sequence. -/
theorem fullUndo_restores_initialRoom_witness :
    (undoN [Cmd.updateRoomType (some ("cave")),
        Cmd.addTile ("Ground") 16 16 3].length
      (applyCmds [Cmd.updateRoomType (some ("cave")),
        Cmd.addTile ("Ground") 16 16 3] groundState)).room = groundState.room :=
  fullUndo_restores_initialRoom
    [Cmd.updateRoomType (some ("cave")), Cmd.addTile ("Ground") 16 16 3]
    groundState rfl rfl rfl (by decide)

/-- C2 counterexample: the sequence consisting of the single closed-set
command `updateRoomChance(7)` records no history entry, so one `undo()`
does not bring the room back (the chance stays 7, the original was 100). -/
theorem fullUndo_fails_for_updateRoomChance :
    (undoN 1 (applyCmds [Cmd.updateRoomChance (some 7)] groundState)).room ≠
      groundState.room := by
  decide

/-! ### Claim C4 -/

/-- C4 (amended): `updateRoomType` and `updateRoomBiome` record a history
entry whose undo restores the prior room, but `updateRoomChance` is a bare
field replacement that records nothing — the undo/redo stacks are untouched
and an immediately following `undo()` therefore cannot restore the previous
chance value. -/
theorem updateRoomChance_records_no_history (s : EditorState)
    (chance : Option Int) (type biome : Option String)
    (hflag : s.isUndoRedoAction = false) :
    (updateRoomChance s chance).room.chance = chance ∧
    (updateRoomChance s chance).undoStack = s.undoStack ∧
    (updateRoomChance s chance).redoStack = s.redoStack ∧
    (undo (updateRoomType s type)).room = s.room ∧
    (undo (updateRoomBiome s biome)).room = s.room := by
  refine ⟨rfl, rfl, rfl, ?_, ?_⟩
  · rw [RoomEditor.updateRoomType,
      updateRoomWithHistory_not_replaying _ _ _ hflag,
      undo_concat _ s.undoStack _ rfl]
  · rw [RoomEditor.updateRoomBiome,
      updateRoomWithHistory_not_replaying _ _ _ hflag,
      undo_concat _ s.undoStack _ rfl]

/-- Witness for C4's amended theorem at a concrete state. -/
theorem updateRoomChance_records_no_history_witness :
    (updateRoomChance groundState (some 5)).undoStack = groundState.undoStack ∧
    (undo (updateRoomType groundState (some ("cave")))).room = groundState.room := by
  have h := updateRoomChance_records_no_history groundState (some 5)
    (some ("cave")) (some ("swamp")) rfl
  exact ⟨h.2.1, h.2.2.2.1⟩

/-- C4 counterexample: starting from chance 100, `updateRoomChance(50)`
followed by `undo()` leaves the chance at 50 — the previous value is not
restored, because no history entry was produced. -/
theorem updateRoomChance_undo_keeps_new_value :
    (undo (updateRoomChance groundState (some 50))).room.chance = some 50 ∧
    groundState.room.chance = some 100 ∧
    (updateRoomChance groundState (some 50)).undoStack = [] :=
  ⟨rfl, rfl, rfl⟩

/-! ### Claim C5 -/

/-- C5 counterexample: with cursor anchor (100,100), tile size 16 and
hot-spot offset (1,1), the snapped-then-offset top-left is
`floor(100/16)*16 - 16 = 80`, not 84, and no tile of the placed 2×2 stamp
lands on row or column 84. -/
theorem brushPlacement_claim84_false :
    brushTopLeft 100 16 1 ≠ 84 ∧
    (∀ t ∈ (firstLayer? (placeTileWithBrush brushState ("Ground") 100 100).room
        ("Ground")).elim [] Layer.tiles, ¬(t.x = 84 ∧ t.y = 84)) := by
  constructor
  · decide
  · decide

/-- C5 (amended): a brush derived from a 2×2 selection (grid-relative tiles,
center hot-spot (1,1)) applied at cursor anchor (100,100) with tile size 16
has its top-left cell at pixel coordinates (80,80): the cursor snaps down to
(96,96) and the offset subtracts 16 in each axis, and the four stamped tiles
are exactly (80,80), (96,80), (80,96), (96,96). -/
theorem brushPlacement_topLeft_80 :
    brushTopLeft 100 16 1 = 80 ∧
    (firstLayer? (placeTileWithBrush brushState ("Ground") 100 100).room
        ("Ground")).map Layer.tiles =
      some [{ x := 80, y := 80, index := 5 }, { x := 96, y := 80, index := 6 },
        { x := 80, y := 96, index := 7 }, { x := 96, y := 96, index := 8 }] :=
  ⟨rfl, rfl⟩

/-! ### Claim C6 -/

/-- C6 counterexample: `updateRoomSize` only prunes tiles on layers whose
`type` is `'tile'`.  A stale tile at (1000,1000) on an object-type layer
survives a resize to 10×10 even though `1000 ≥ 10`. -/
theorem updateRoomSize_keeps_objectLayer_tiles :
    (updateRoomSize (initialEditorState staleObjectLayerRoom) 10 10).room.width
      = 10 ∧
    (updateRoomSize (initialEditorState staleObjectLayerRoom) 10 10).room.layers.map
      Layer.tiles = [[{ x := 1000, y := 1000, index := 3 }]] ∧
    ¬((1000 : Int) < 10) :=
  ⟨rfl, rfl, by decide⟩

/-- C6 (amended): `ResizeRoom(w,h)` sets the new bounds, removes exactly the
out-of-bounds instances and the out-of-bounds tiles *on layers of type
`'tile'`*, and leaves everything else unchanged — including the tile lists
of layers that are not tile-typed and every other layer and room field. -/
theorem updateRoomSize_prunes (s : EditorState) (w h : Int) :
    (updateRoomSize s w h).room.width = w ∧
    (updateRoomSize s w h).room.height = h ∧
    (updateRoomSize s w h).room.name = s.room.name ∧
    (updateRoomSize s w h).room.index = s.room.index ∧
    (updateRoomSize s w h).room.type = s.room.type ∧
    (updateRoomSize s w h).room.biome = s.room.biome ∧
    (updateRoomSize s w h).room.chance = s.room.chance ∧
    (∀ inst : Instance, inst ∈ (updateRoomSize s w h).room.instances ↔
      (inst ∈ s.room.instances ∧ inst.x < w ∧ inst.y < h ∧
        0 ≤ inst.x ∧ 0 ≤ inst.y)) ∧
    List.Forall₂ (fun l l' =>
        l'.name = l.name ∧ l'.depth = l.depth ∧ l'.type = l.type ∧
        l'.visible = l.visible ∧ l'.texture = l.texture ∧
        (l.type = LayerType.tile →
          ∀ t : Tile, t ∈ l'.tiles ↔
            (t ∈ l.tiles ∧ t.x < w ∧ t.y < h ∧ 0 ≤ t.x ∧ 0 ≤ t.y)) ∧
        (l.type ≠ LayerType.tile → l'.tiles = l.tiles))
      s.room.layers (updateRoomSize s w h).room.layers := by
  refine ⟨rfl, rfl, rfl, rfl, rfl, rfl, rfl, ?_, ?_⟩
  · intro inst
    show inst ∈ s.room.instances.filter _ ↔ _
    simp [List.mem_filter, and_assoc]
  · show List.Forall₂ _ s.room.layers (s.room.layers.map _)
    rw [List.forall₂_map_right_iff, List.forall₂_same]
    intro l _
    by_cases ht : l.type = LayerType.tile
    · have ht2 : (l.type == LayerType.tile) = true := by simp [ht]
      refine ⟨?_, ?_, ?_, ?_, ?_, ?_, ?_⟩ <;>
        simp [ht2, ht, List.mem_filter, and_assoc]
    · have ht2 : (l.type == LayerType.tile) = false := by simp [ht]
      refine ⟨?_, ?_, ?_, ?_, ?_, ?_, ?_⟩ <;>
        simp [ht2, ht]

/-- Witness for C6's amended theorem at a concrete resize. -/
theorem updateRoomSize_prunes_witness :
    (updateRoomSize groundState 10 10).room.width = 10 :=
  (updateRoomSize_prunes groundState 10 10).1

/-! ### Claim C3 -/

/-- During a paint session a tile add/remove touches only the live room and
the paint buffer (history untouched), appending at least one buffered entry
whenever the event is effective. -/
lemma applyPaintOp_painting (op : PaintOp) (s : EditorState)
    (hp : s.isPainting = true) :
    (applyPaintOp s op).isPainting = true ∧
    (applyPaintOp s op).isUndoRedoAction = s.isUndoRedoAction ∧
    (applyPaintOp s op).undoStack = s.undoStack ∧
    (applyPaintOp s op).redoStack = s.redoStack ∧
    (applyPaintOp s op).initialRoomState = s.initialRoomState ∧
    ∃ extra, (applyPaintOp s op).paintedTiles = s.paintedTiles ++ extra ∧
      (paintOpOk s.room op = true → extra ≠ []) := by
  cases op with
  | add layerName x y index =>
    cases hf : s.room.layers.find? (fun l => l.name == layerName) with
    | none =>
      refine ⟨?_, ?_, ?_, ?_, ?_, [], ?_, ?_⟩ <;>
        simp [applyPaintOp, RoomEditor.addTile, hf, hp, paintOpOk, hasTileLayer]
    | some layer =>
      by_cases ht : layer.type = LayerType.tile
      · have ht2 : (layer.type != LayerType.tile) = false := by simp [ht]
        refine ⟨?_, ?_, ?_, ?_, ?_, [⟨layerName, x, y, some index⟩], ?_, ?_⟩ <;>
          simp [applyPaintOp, RoomEditor.addTile, hf, ht2, hp]
      · have ht2 : (layer.type != LayerType.tile) = true := by
          simp [bne_iff_ne, ht]
        refine ⟨?_, ?_, ?_, ?_, ?_, [], ?_, ?_⟩ <;>
          simp [applyPaintOp, RoomEditor.addTile, hf, ht2, hp, paintOpOk,
            hasTileLayer, ht]
  | remove layerName x y =>
    refine ⟨?_, ?_, ?_, ?_, ?_, [⟨layerName, x, y, none⟩], ?_, ?_⟩ <;>
      simp [applyPaintOp, RoomEditor.removeTile, hp]

/-- A whole stroke keeps the session live and the history untouched; the
buffer grows monotonically and is non-empty once the first delivered event
is effective. -/
lemma applyPaintOps_painting : ∀ (ops : List PaintOp) (s : EditorState),
    s.isPainting = true →
    (applyPaintOps ops s).isPainting = true ∧
    (applyPaintOps ops s).isUndoRedoAction = s.isUndoRedoAction ∧
    (applyPaintOps ops s).undoStack = s.undoStack ∧
    (applyPaintOps ops s).redoStack = s.redoStack ∧
    (applyPaintOps ops s).initialRoomState = s.initialRoomState ∧
    ∃ extra, (applyPaintOps ops s).paintedTiles = s.paintedTiles ++ extra ∧
      (∀ op, ops.head? = some op → paintOpOk s.room op = true → extra ≠ []) := by
  intro ops
  induction ops with
  | nil =>
    intro s hp
    exact ⟨hp, rfl, rfl, rfl, rfl, [], by simp [applyPaintOps],
      fun op hop => by simp at hop⟩
  | cons op ops ih =>
    intro s hp
    have hstep : applyPaintOps (op :: ops) s = applyPaintOps ops (applyPaintOp s op) := by
      simp [applyPaintOps, List.foldl_cons]
    obtain ⟨p1, p2, p3, p4, p5, extra1, p6, p7⟩ := applyPaintOp_painting op s hp
    obtain ⟨q1, q2, q3, q4, q5, extra2, q6, _⟩ := ih (applyPaintOp s op) p1
    rw [hstep]
    refine ⟨q1, q2.trans p2, q3.trans p3, q4.trans p4, q5.trans p5,
      extra1 ++ extra2, ?_, ?_⟩
    · rw [q6, p6, List.append_assoc]
    · intro op' hop' hok
      simp only [List.head?_cons, Option.some.injEq] at hop'
      subst hop'
      have h1 := p7 hok
      intro hcontra
      rcases List.append_eq_nil.mp hcontra with ⟨h2, _⟩
      exact h1 h2

/-- `endPainting` with a live session and a non-empty buffer: one
`BATCH_ADD_TILES` entry carrying the buffer and the baseline snapshot is
pushed, the redo stack is cleared and the session state is reset. -/
lemma endPainting_nonempty (s : EditorState) (hp : s.isPainting = true)
    (hne : s.paintedTiles ≠ []) (hflag : s.isUndoRedoAction = false) :
    endPainting s =
      { s with
          undoStack := s.undoStack ++
            [⟨ActionType.BATCH_ADD_TILES,
              { batchedTiles := some s.paintedTiles,
                previousRoom := s.initialRoomState },
              "Added " ++ toString s.paintedTiles.length ++ " tiles"⟩],
          redoStack := [],
          isPainting := false,
          paintedTiles := [],
          initialRoomState := none } := by
  have h0 : (s.paintedTiles.length == 0) = false := by
    simp [List.length_eq_zero, hne]
  simp [endPainting, hp, h0, addToHistory, hflag]

/-- C3: a paint session over a non-empty stroke of effective tile
add/remove events commits exactly one history entry (a `BATCH_ADD_TILES`
one), and a single `undo()` of it restores the pre-session room; a session
whose buffer stayed empty commits no entry and leaves the room as it was. -/
theorem paintSession_single_history_entry (s : EditorState)
    (ops : List PaintOp) (hflag : s.isUndoRedoAction = false)
    (hne : ops ≠ []) (hok : ∀ op ∈ ops, paintOpOk s.room op = true) :
    (∃ e, (paintSession s ops).undoStack = s.undoStack ++ [e] ∧
      e.type = ActionType.BATCH_ADD_TILES) ∧
    (undo (paintSession s ops)).room = s.room ∧
    (paintSession s []).undoStack = s.undoStack ∧
    (paintSession s []).room = s.room := by
  obtain ⟨q1, q2, q3, q4, q5, extra, q6, q7⟩ :=
    applyPaintOps_painting ops (startPainting s) rfl
  have hextra : extra ≠ [] := by
    cases ops with
    | nil => exact absurd rfl hne
    | cons op ops' =>
      exact q7 op rfl (hok op (List.mem_cons_self op ops'))
  have hbuf : (applyPaintOps ops (startPainting s)).paintedTiles = extra := by
    rw [q6]
    show (startPainting s).paintedTiles ++ extra = extra
    simp [startPainting]
  have hempty : (applyPaintOps ops (startPainting s)).paintedTiles ≠ [] := by
    rw [hbuf]; exact hextra
  have hflag' : (applyPaintOps ops (startPainting s)).isUndoRedoAction = false := by
    rw [q2]; exact hflag
  have hend := endPainting_nonempty (applyPaintOps ops (startPainting s))
    q1 hempty hflag'
  have hinit : (applyPaintOps ops (startPainting s)).initialRoomState
      = some s.room := by
    rw [q5]; rfl
  have hstack : (applyPaintOps ops (startPainting s)).undoStack
      = s.undoStack := by
    rw [q3]; rfl
  refine ⟨⟨⟨ActionType.BATCH_ADD_TILES,
      { batchedTiles := some (applyPaintOps ops (startPainting s)).paintedTiles,
        previousRoom := (applyPaintOps ops (startPainting s)).initialRoomState },
      "Added "
        ++ toString (applyPaintOps ops (startPainting s)).paintedTiles.length
        ++ " tiles"⟩, ?_, rfl⟩, ?_, rfl, rfl⟩
  · rw [paintSession, hend]
    simp [hstack]
  · rw [paintSession, hend]
    simp [undo, hstack, hinit]

/-- Witness for C3 on a five-`AddTile` stroke, §8's test scenario. -/
theorem paintSession_single_history_entry_witness :
    (∃ e, (paintSession groundState
        [PaintOp.add ("Ground") 0 0 1, PaintOp.add ("Ground") 16 0 1,
         PaintOp.add ("Ground") 32 0 1, PaintOp.add ("Ground") 48 0 1,
         PaintOp.add ("Ground") 64 0 1]).undoStack =
      groundState.undoStack ++ [e] ∧ e.type = ActionType.BATCH_ADD_TILES) ∧
    (undo (paintSession groundState
        [PaintOp.add ("Ground") 0 0 1, PaintOp.add ("Ground") 16 0 1,
         PaintOp.add ("Ground") 32 0 1, PaintOp.add ("Ground") 48 0 1,
         PaintOp.add ("Ground") 64 0 1])).room = groundState.room := by
  have h := paintSession_single_history_entry groundState
    [PaintOp.add ("Ground") 0 0 1, PaintOp.add ("Ground") 16 0 1,
     PaintOp.add ("Ground") 32 0 1, PaintOp.add ("Ground") 48 0 1,
     PaintOp.add ("Ground") 64 0 1] rfl (by decide) (by decide)
  exact ⟨h.1, h.2.1⟩

/-! ### Claim C8 -/

/-- C8: when `instance_layer_name` names no existing layer of type
`'object'`, `addInstance` is a silent no-op — the whole editor state
(room, both history stacks) is returned unchanged. -/
theorem addInstance_invalid_layer_noop (s : EditorState) (inst : Instance)
    (h : ¬ ∃ l ∈ s.room.layers,
      l.name = inst.instance_layer_name ∧ l.type = LayerType.object) :
    addInstance s inst = s := by
  have hc : canPlaceObjectOnLayer s.room inst.instance_layer_name = false := by
    cases hf : s.room.layers.find?
        (fun l => l.name == inst.instance_layer_name) with
    | none => simp [canPlaceObjectOnLayer, hf]
    | some layer =>
      have hmem := List.mem_of_find?_eq_some hf
      have hname : layer.name = inst.instance_layer_name := by
        have := List.find?_some hf
        simpa using this
      by_cases ho : layer.type = LayerType.object
      · exact absurd ⟨layer, hmem, hname, ho⟩ h
      · simp [canPlaceObjectOnLayer, hf, ho]
  simp [RoomEditor.addInstance, hc]

/-- Witness for C8: Ground exists but is a tile layer, so placement is
refused without a trace. -/
theorem addInstance_invalid_layer_noop_witness :
    addInstance groundState
        { instance_layer_name := "Ground", obj_name := "oTree",
          x := 0, y := 0 } = groundState :=
  addInstance_invalid_layer_noop groundState
    { instance_layer_name := "Ground", obj_name := "oTree", x := 0, y := 0 }
    (by decide)

/-! ### Claim C9 -/

/-- C9: on an array input `importBrushLibrary` keeps exactly the entries
passing the field validation (string id/name/texture, array tiles, numeric
width/height) and reports success precisely when at least one entry
survives; an all-invalid array or any non-array input reports failure and
leaves the existing library untouched. -/
theorem importBrushLibrary_validation (elems : List Json) (lib : List Json) :
    (0 < (elems.filter isValidBrush).length →
      importBrushLibrary (Json.arr elems) lib =
        (true, elems.filter isValidBrush)) ∧
    ((elems.filter isValidBrush) = [] →
      importBrushLibrary (Json.arr elems) lib = (false, lib)) ∧
    (∀ j : Json, (∀ es : List Json, j ≠ Json.arr es) →
      importBrushLibrary j lib = (false, lib)) := by
  refine ⟨?_, ?_, ?_⟩
  · intro hpos
    simp [importBrushLibrary, hpos]
  · intro hnil
    simp [importBrushLibrary, hnil]
  · intro j hj
    cases j with
    | arr es => exact absurd rfl (hj es)
    | null => rfl
    | bool b => rfl
    | num n => rfl
    | str s => rfl
    | obj fields => rfl

/-- Witness for C9: two of three entries are well-formed, the import
succeeds with exactly those two; `{}` is not an array and fails, leaving
the library untouched. -/
theorem importBrushLibrary_validation_witness :
    importBrushLibrary
      (Json.arr
        [Json.obj [("id", Json.str ("b1")), ("name", Json.str ("Brush 1")),
          ("tiles", Json.arr []), ("width", Json.num 1),
          ("height", Json.num 1), ("texture", Json.str ("t"))],
         Json.obj [("id", Json.num 3)],
         Json.obj [("id", Json.str ("b2")), ("name", Json.str ("Brush 2")),
          ("tiles", Json.arr []), ("width", Json.num 2),
          ("height", Json.num 2), ("texture", Json.str ("t"))]])
      [Json.str ("old")] =
      (true,
        [Json.obj [("id", Json.str ("b1")), ("name", Json.str ("Brush 1")),
          ("tiles", Json.arr []), ("width", Json.num 1),
          ("height", Json.num 1), ("texture", Json.str ("t"))],
         Json.obj [("id", Json.str ("b2")), ("name", Json.str ("Brush 2")),
          ("tiles", Json.arr []), ("width", Json.num 2),
          ("height", Json.num 2), ("texture", Json.str ("t"))]]) ∧
    importBrushLibrary (Json.obj []) [Json.str ("old")] =
      (false, [Json.str ("old")]) := by
  constructor
  · have h := (importBrushLibrary_validation
      [Json.obj [("id", Json.str ("b1")), ("name", Json.str ("Brush 1")),
        ("tiles", Json.arr []), ("width", Json.num 1),
        ("height", Json.num 1), ("texture", Json.str ("t"))],
       Json.obj [("id", Json.num 3)],
       Json.obj [("id", Json.str ("b2")), ("name", Json.str ("Brush 2")),
        ("tiles", Json.arr []), ("width", Json.num 2),
        ("height", Json.num 2), ("texture", Json.str ("t"))]]
      [Json.str ("old")]).1 (by decide)
    rw [h]
    exact rfl
  · exact (importBrushLibrary_validation [] [Json.str ("old")]).2.2
      (Json.obj []) (fun es h => by cases h)

/-! ### Claim C10 -/

/-- C10: a successful import *replaces* the saved-brush library with
exactly the valid imported entries; any previously saved brush that is not
among them is gone. -/
theorem importBrushLibrary_replaces_library (elems lib : List Json)
    (b : Json) (hpos : 0 < (elems.filter isValidBrush).length) :
    (importBrushLibrary (Json.arr elems) lib).2 = elems.filter isValidBrush ∧
    (b ∈ lib → b ∉ elems.filter isValidBrush →
      b ∉ (importBrushLibrary (Json.arr elems) lib).2) := by
  have h : importBrushLibrary (Json.arr elems) lib =
      (true, elems.filter isValidBrush) := by
    simp [importBrushLibrary, hpos]
  rw [h]
  exact ⟨rfl, fun _ hnb => hnb⟩

/-- Witness for C10: the previously saved brush `old` is dropped by a
successful import that does not contain it. -/
theorem importBrushLibrary_replaces_library_witness :
    Json.str ("old") ∉
      (importBrushLibrary
        (Json.arr
          [Json.obj [("id", Json.str ("b1")), ("name", Json.str ("Brush 1")),
            ("tiles", Json.arr []), ("width", Json.num 1),
            ("height", Json.num 1), ("texture", Json.str ("t"))]])
        [Json.str ("old")]).2 :=
  (importBrushLibrary_replaces_library
    [Json.obj [("id", Json.str ("b1")), ("name", Json.str ("Brush 1")),
      ("tiles", Json.arr []), ("width", Json.num 1),
      ("height", Json.num 1), ("texture", Json.str ("t"))]]
    [Json.str ("old")] (Json.str ("old")) (by decide)).2
    (by simp) (by simp)

/-! ### Claim C7: helper lemmas about the tile-occupancy invariant -/

lemma mem_upsertTile {ts : List Tile} {x y i : Int} {b : Tile}
    (hb : b ∈ upsertTile ts x y i) :
    b ∈ ts ∨ b = { x := x, y := y, index := i } := by
  induction ts with
  | nil => simpa [upsertTile] using hb
  | cons t ts ih =>
    by_cases h : (t.x == x && t.y == y) = true
    · simp only [upsertTile, h, if_true] at hb
      rcases List.mem_cons.mp hb with h1 | h1
      · exact Or.inr h1
      · exact Or.inl (List.mem_cons_of_mem t h1)
    · simp only [upsertTile, h, if_false] at hb
      rcases List.mem_cons.mp hb with h1 | h1
      · exact Or.inl (by rw [h1]; exact List.mem_cons_self t ts)
      · rcases ih h1 with h2 | h2
        · exact Or.inl (List.mem_cons_of_mem t h2)
        · exact Or.inr h2

lemma upsertTile_pairwise {ts : List Tile} {x y i : Int}
    (hp : ts.Pairwise (fun a b => ¬(a.x = b.x ∧ a.y = b.y))) :
    (upsertTile ts x y i).Pairwise (fun a b => ¬(a.x = b.x ∧ a.y = b.y)) := by
  induction ts with
  | nil => simp [upsertTile]
  | cons t ts ih =>
    rcases List.pairwise_cons.mp hp with ⟨h1, h2⟩
    by_cases h : (t.x == x && t.y == y) = true
    · have hx : t.x = x ∧ t.y = y := by simpa using h
      simp only [upsertTile, h, if_true]
      refine List.pairwise_cons.mpr ⟨?_, h2⟩
      intro b hb hcell
      exact h1 b hb ⟨hx.1.symm ▸ hcell.1, hx.2.symm ▸ hcell.2⟩
    · simp only [upsertTile, h, if_false]
      refine List.pairwise_cons.mpr ⟨?_, ih h2⟩
      intro b hb
      rcases mem_upsertTile hb with h3 | h3
      · exact h1 b h3
      · rw [h3]
        intro hcell
        exact h (by simp [hcell.1, hcell.2])

lemma removeFirstTile_sublist (ts : List Tile) (x y : Int) :
    List.Sublist (removeFirstTile ts x y) ts := by
  induction ts with
  | nil => simp [removeFirstTile]
  | cons t ts ih =>
    by_cases h : (t.x == x && t.y == y) = true
    · simp only [removeFirstTile, h, if_true]
      exact List.sublist_cons_self t ts
    · simp only [removeFirstTile, h, if_false]
      exact List.Sublist.cons₂ t ih

lemma removeFirstTile_no_cell {ts : List Tile} {x y : Int}
    (hp : ts.Pairwise (fun a b => ¬(a.x = b.x ∧ a.y = b.y))) :
    ∀ b ∈ removeFirstTile ts x y, ¬(b.x = x ∧ b.y = y) := by
  induction ts with
  | nil => simp [removeFirstTile]
  | cons t ts ih =>
    rcases List.pairwise_cons.mp hp with ⟨h1, h2⟩
    by_cases h : (t.x == x && t.y == y) = true
    · have hx : t.x = x ∧ t.y = y := by simpa using h
      simp only [removeFirstTile, h, if_true]
      intro b hb hcell
      exact h1 b hb ⟨hx.1.trans hcell.1.symm, hx.2.trans hcell.2.symm⟩
    · simp only [removeFirstTile, h, if_false]
      intro b hb
      rcases List.mem_cons.mp hb with h3 | h3
      · rw [h3]
        intro hcell
        exact h (by simp [hcell.1, hcell.2])
      · exact ih h2 b h3

lemma brushFold_pairwise (roomW roomH : Int) (ln : String) (x y : Int) :
    ∀ (bts : List Tile) (acc : List Tile × List BatchedTile),
    acc.1.Pairwise (fun a b => ¬(a.x = b.x ∧ a.y = b.y)) →
    (List.foldl (brushStep roomW roomH ln x y) acc bts).1.Pairwise
      (fun a b => ¬(a.x = b.x ∧ a.y = b.y)) := by
  intro bts
  induction bts with
  | nil => intro acc hp; exact hp
  | cons bt bts ih =>
    intro acc hp
    rw [List.foldl_cons]
    apply ih
    by_cases hcond : x + bt.x * tileSize < 0 ∨ y + bt.y * tileSize < 0 ∨
        x + bt.x * tileSize ≥ roomW ∨ y + bt.y * tileSize ≥ roomH
    · simpa [brushStep, hcond] using hp
    · simp only [brushStep, if_neg hcond]
      refine List.pairwise_append.mpr ⟨?_, ?_, ?_⟩
      · exact hp.sublist (removeFirstTile_sublist acc.1 _ _)
      · simp
      · intro a ha b hb
        simp only [List.mem_singleton] at hb
        rw [hb]
        intro hcell
        exact removeFirstTile_no_cell hp a ha ⟨hcell.1, hcell.2⟩

lemma mem_updateFirstLayer {ls : List Layer} {name : String}
    {f : Layer → Layer} {l' : Layer} (h : l' ∈ updateFirstLayer ls name f) :
    l' ∈ ls ∨ ∃ l ∈ ls, l' = f l := by
  induction ls with
  | nil => simp [updateFirstLayer] at h
  | cons l ls ih =>
    by_cases hl : (l.name == name) = true
    · simp only [updateFirstLayer, hl, if_true] at h
      rcases List.mem_cons.mp h with h1 | h1
      · exact Or.inr ⟨l, List.mem_cons_self l ls, h1⟩
      · exact Or.inl (List.mem_cons_of_mem l h1)
    · simp only [updateFirstLayer, hl, if_false] at h
      rcases List.mem_cons.mp h with h1 | h1
      · exact Or.inl (by rw [h1]; exact List.mem_cons_self l ls)
      · rcases ih h1 with h2 | h2
        · exact Or.inl (List.mem_cons_of_mem l h2)
        · rcases h2 with ⟨l0, hl0, hl0'⟩
          exact Or.inr ⟨l0, List.mem_cons_of_mem l hl0, hl0'⟩

lemma find?_updateFirstLayer {ls : List Layer} {name : String}
    (f : Layer → Layer) (hf : ∀ l, (f l).name = l.name) :
    (updateFirstLayer ls name f).find? (fun l => l.name == name) =
      (ls.find? (fun l => l.name == name)).map f := by
  induction ls with
  | nil => rfl
  | cons l ls ih =>
    by_cases hl : (l.name == name) = true
    · simp [updateFirstLayer, hl, List.find?_cons, hf]
    · have hl' : (l.name == name) = false := Bool.eq_false_iff.mpr hl
      simp [updateFirstLayer, hl', List.find?_cons, ih]

lemma filter_upsertTile {ts : List Tile} {x y i : Int}
    (hp : ts.Pairwise (fun a b => ¬(a.x = b.x ∧ a.y = b.y))) :
    (upsertTile ts x y i).filter (fun t => t.x == x && t.y == y) =
      [{ x := x, y := y, index := i }] := by
  induction ts with
  | nil => simp [upsertTile]
  | cons t ts ih =>
    rcases List.pairwise_cons.mp hp with ⟨h1, h2⟩
    by_cases h : (t.x == x && t.y == y) = true
    · have hx : t.x = x ∧ t.y = y := by simpa using h
      have hnil : ts.filter (fun t => t.x == x && t.y == y) = [] := by
        apply List.filter_eq_nil_iff.mpr
        intro b hb
        intro hbeq
        have hcell : b.x = x ∧ b.y = y := by simpa using hbeq
        exact h1 b hb ⟨hx.1.trans hcell.1.symm, hx.2.trans hcell.2.symm⟩
      simp only [upsertTile, h, if_true]
      simp [List.filter_cons, hnil]
    · simp only [upsertTile, h, if_false]
      simp [List.filter_cons, h, ih h2]

lemma addToHistory_room (s : EditorState) (a : RoomAction) :
    (addToHistory s a).room = s.room := by
  cases hb : s.isUndoRedoAction <;> simp [addToHistory, hb]

lemma updateRoomWithHistory_room (s : EditorState) (newRoom : Room)
    (action : RoomAction) :
    (updateRoomWithHistory s newRoom action).room = newRoom := by
  cases hb : s.isUndoRedoAction <;>
    simp [updateRoomWithHistory, addToHistory, hb]

lemma addTile_room_of_find {s : EditorState} {ln : String} {x y i : Int}
    {layer : Layer}
    (hf : s.room.layers.find? (fun l => l.name == ln) = some layer)
    (ht : layer.type = LayerType.tile) :
    (addTile s ln x y i).room =
      { s.room with
          layers := updateFirstLayer s.room.layers ln
            (fun l => { l with tiles := upsertTile l.tiles x y i }) } := by
  have ht2 : (layer.type != LayerType.tile) = false := by simp [ht]
  cases hb : s.isPainting <;>
    simp [RoomEditor.addTile, hf, ht2, hb, updateRoomWithHistory_room]

lemma roomInv_updateFirstLayer {ls : List Layer} {ln : String}
    {f : Layer → Layer} (hinv : ∀ l ∈ ls, LayerInv l)
    (hf : ∀ l, LayerInv l → LayerInv (f l)) :
    ∀ l' ∈ updateFirstLayer ls ln f, LayerInv l' := by
  intro l' hl'
  rcases mem_updateFirstLayer hl' with h | ⟨l, hl, rfl⟩
  · exact hinv l' h
  · exact hf l (hinv l hl)

lemma roomInv_map {ls : List Layer} {f : Layer → Layer}
    (hinv : ∀ l ∈ ls, LayerInv l)
    (hf : ∀ l, LayerInv l → LayerInv (f l)) :
    ∀ l' ∈ ls.map f, LayerInv l' := by
  intro l' hl'
  rcases List.mem_map.mp hl' with ⟨l, hl, rfl⟩
  exact hf l (hinv l hl)

/-- C7: every layer holds at most one tile per cell and every mutation
command preserves this (for `addLayer`, provided the appended layer itself
satisfies it — the engine appends it verbatim); placing on an occupied cell
replaces the occupant, so two consecutive `addTile` calls at one cell leave
exactly one tile there bearing the later index. -/
theorem tileOccupancy_invariant (s : EditorState) (hinv : RoomInv s.room) :
    (∀ c : Cmd, CmdOk c → RoomInv (applyCmd c s).room) ∧
    (∀ (layerName : String) (x y i1 i2 : Int), i1 ≠ i2 →
      hasTileLayer s.room layerName = true →
      ∃ l, firstLayer?
          (addTile (addTile s layerName x y i1) layerName x y i2).room
          layerName = some l ∧
        l.tiles.filter (fun t => t.x == x && t.y == y) =
          [{ x := x, y := y, index := i2 }]) := by
  constructor
  · intro c hok
    cases c with
    | setRoomName name =>
      have hroom : (applyCmd (Cmd.setRoomName name) s).room.layers
          = s.room.layers := by
        simp [applyCmd, RoomEditor.setRoomName, updateRoomWithHistory_room]
      intro l hl
      rw [hroom] at hl
      exact hinv l hl
    | addInstance inst =>
      have hroom : (applyCmd (Cmd.addInstance inst) s).room.layers
          = s.room.layers := by
        cases hc : canPlaceObjectOnLayer s.room inst.instance_layer_name <;>
          simp [applyCmd, RoomEditor.addInstance, hc,
            updateRoomWithHistory_room]
      intro l hl
      rw [hroom] at hl
      exact hinv l hl
    | removeInstance index =>
      have hroom : (applyCmd (Cmd.removeInstance index) s).room.layers
          = s.room.layers := by
        cases hg : s.room.instances[index]? <;>
          simp [applyCmd, RoomEditor.removeInstance, List.get?_eq_getElem?,
            hg, updateRoomWithHistory_room]
      intro l hl
      rw [hroom] at hl
      exact hinv l hl
    | addLayer layer =>
      have hlayer : LayerInv layer := hok
      have hroom : (applyCmd (Cmd.addLayer layer) s).room.layers
          = s.room.layers ++ [layer] := by
        simp [applyCmd, RoomEditor.addLayer, updateRoomWithHistory_room]
      intro l hl
      rw [hroom] at hl
      rcases List.mem_append.mp hl with h | h
      · exact hinv l h
      · rw [List.mem_singleton.mp h]
        exact hlayer
    | removeLayer name =>
      cases hf : s.room.layers.find? (fun l => l.name == name) with
      | none =>
        have hroom : (applyCmd (Cmd.removeLayer name) s).room = s.room := by
          simp [applyCmd, RoomEditor.removeLayer, hf]
        rw [hroom]
        exact hinv
      | some layer =>
        have hroom : (applyCmd (Cmd.removeLayer name) s).room.layers
            = s.room.layers.filter (fun l => !(l.name == name)) := by
          simp [applyCmd, RoomEditor.removeLayer, hf,
            updateRoomWithHistory_room]
        intro l hl
        rw [hroom] at hl
        exact hinv l (List.mem_of_mem_filter hl)
    | toggleLayerVisibility name =>
      have hroom : (applyCmd (Cmd.toggleLayerVisibility name) s).room.layers
          = s.room.layers.map (fun layer =>
              if layer.name == name then
                { layer with visible := !layer.visible }
              else layer) := by
        simp [applyCmd, RoomEditor.toggleLayerVisibility,
          updateRoomWithHistory_room]
      intro l hl
      rw [hroom] at hl
      refine roomInv_map hinv ?_ l hl
      intro l0 h0
      by_cases hm : (l0.name == name) = true
      · rw [if_pos hm]
        exact h0
      · rw [if_neg hm]
        exact h0
    | updateLayerType name type =>
      have hroom : (applyCmd (Cmd.updateLayerType name type) s).room.layers
          = s.room.layers.map (fun layer =>
              if layer.name == name then { layer with type := type }
              else layer) := by
        simp [applyCmd, RoomEditor.updateLayerType,
          updateRoomWithHistory_room]
      intro l hl
      rw [hroom] at hl
      refine roomInv_map hinv ?_ l hl
      intro l0 h0
      by_cases hm : (l0.name == name) = true
      · rw [if_pos hm]
        exact h0
      · rw [if_neg hm]
        exact h0
    | updateLayerTexture name texture =>
      have hroom :
          (applyCmd (Cmd.updateLayerTexture name texture) s).room.layers
          = s.room.layers.map (fun layer =>
              if layer.name == name then
                { layer with texture := some texture }
              else layer) := by
        simp [applyCmd, RoomEditor.updateLayerTexture,
          updateRoomWithHistory_room]
      intro l hl
      rw [hroom] at hl
      refine roomInv_map hinv ?_ l hl
      intro l0 h0
      by_cases hm : (l0.name == name) = true
      · rw [if_pos hm]
        exact h0
      · rw [if_neg hm]
        exact h0
    | addTile layerName x y index =>
      cases hf : s.room.layers.find? (fun l => l.name == layerName) with
      | none =>
        have hroom : (applyCmd (Cmd.addTile layerName x y index) s).room
            = s.room := by
          simp [applyCmd, RoomEditor.addTile, hf]
        rw [hroom]
        exact hinv
      | some layer =>
        by_cases ht : layer.type = LayerType.tile
        · have hroom :
              (applyCmd (Cmd.addTile layerName x y index) s).room.layers
              = updateFirstLayer s.room.layers layerName
                  (fun l => { l with tiles := upsertTile l.tiles x y index }) := by
            rw [show (applyCmd (Cmd.addTile layerName x y index) s).room
                = (addTile s layerName x y index).room from rfl]
            rw [addTile_room_of_find hf ht]
          intro l hl
          rw [hroom] at hl
          refine roomInv_updateFirstLayer hinv ?_ l hl
          intro l0 h0
          exact upsertTile_pairwise h0
        · have ht2 : (layer.type != LayerType.tile) = true := by
            simp [bne_iff_ne, ht]
          have hroom : (applyCmd (Cmd.addTile layerName x y index) s).room
              = s.room := by
            simp [applyCmd, RoomEditor.addTile, hf, ht2]
          rw [hroom]
          exact hinv
    | removeTile layerName x y =>
      cases hb : s.isPainting with
      | true =>
        cases hf : s.room.layers.find? (fun l => l.name == layerName) with
        | none =>
          have hroom : (applyCmd (Cmd.removeTile layerName x y) s).room
              = s.room := by
            simp [applyCmd, RoomEditor.removeTile, hb, hf]
          rw [hroom]
          exact hinv
        | some layer =>
          by_cases ht : layer.type = LayerType.tile
          · have ht2 : (layer.type != LayerType.tile) = false := by simp [ht]
            have hroom :
                (applyCmd (Cmd.removeTile layerName x y) s).room.layers
                = updateFirstLayer s.room.layers layerName
                    (fun l => { l with tiles := removeTilesAt l.tiles x y }) := by
              simp [applyCmd, RoomEditor.removeTile, hb, hf, ht2]
            intro l hl
            rw [hroom] at hl
            refine roomInv_updateFirstLayer hinv ?_ l hl
            intro l0 h0
            exact List.Pairwise.sublist (List.filter_sublist _) h0
          · have ht2 : (layer.type != LayerType.tile) = true := by
              simp [bne_iff_ne, ht]
            have hroom : (applyCmd (Cmd.removeTile layerName x y) s).room
                = s.room := by
              simp [applyCmd, RoomEditor.removeTile, hb, hf, ht2]
            rw [hroom]
            exact hinv
      | false =>
        cases hf : s.room.layers.find? (fun l => l.name == layerName) with
        | none =>
          have hroom : (applyCmd (Cmd.removeTile layerName x y) s).room
              = s.room := by
            simp [applyCmd, RoomEditor.removeTile, hb, hf]
          rw [hroom]
          exact hinv
        | some layer =>
          by_cases ht : layer.type = LayerType.tile
          · have ht2 : (layer.type != LayerType.tile) = false := by simp [ht]
            cases hi : layer.tiles.findIdx? (fun t => t.x == x && t.y == y) with
            | none =>
              have hroom : (applyCmd (Cmd.removeTile layerName x y) s).room
                  = s.room := by
                simp [applyCmd, RoomEditor.removeTile, hb, hf, ht2, hi]
              rw [hroom]
              exact hinv
            | some i =>
              have hroom :
                  (applyCmd (Cmd.removeTile layerName x y) s).room.layers
                  = updateFirstLayer s.room.layers layerName
                      (fun l =>
                        { l with tiles := removeFirstTile l.tiles x y }) := by
                simp [applyCmd, RoomEditor.removeTile, hb, hf, ht2, hi,
                  updateRoomWithHistory_room]
              intro l hl
              rw [hroom] at hl
              refine roomInv_updateFirstLayer hinv ?_ l hl
              intro l0 h0
              exact List.Pairwise.sublist
                (removeFirstTile_sublist l0.tiles x y) h0
          · have ht2 : (layer.type != LayerType.tile) = true := by
              simp [bne_iff_ne, ht]
            have hroom : (applyCmd (Cmd.removeTile layerName x y) s).room
                = s.room := by
              simp [applyCmd, RoomEditor.removeTile, hb, hf, ht2]
            rw [hroom]
            exact hinv
    | updateRoomSize width height =>
      have hroom : (applyCmd (Cmd.updateRoomSize width height) s).room.layers
          = s.room.layers.map (fun layer =>
              if layer.type == LayerType.tile then
                { layer with
                    tiles := layer.tiles.filter (fun tile =>
                      decide (tile.x < width ∧ tile.y < height ∧
                        0 ≤ tile.x ∧ 0 ≤ tile.y)) }
              else layer) := by
        simp [applyCmd, RoomEditor.updateRoomSize, addToHistory_room]
      intro l hl
      rw [hroom] at hl
      refine roomInv_map hinv ?_ l hl
      intro l0 h0
      by_cases hm : (l0.type == LayerType.tile) = true
      · rw [if_pos hm]
        exact List.Pairwise.sublist (List.filter_sublist _) h0
      · rw [if_neg hm]
        exact h0
    | updateRoomType type =>
      have hroom : (applyCmd (Cmd.updateRoomType type) s).room.layers
          = s.room.layers := by
        simp [applyCmd, RoomEditor.updateRoomType, updateRoomWithHistory_room]
      intro l hl
      rw [hroom] at hl
      exact hinv l hl
    | updateRoomBiome biome =>
      have hroom : (applyCmd (Cmd.updateRoomBiome biome) s).room.layers
          = s.room.layers := by
        simp [applyCmd, RoomEditor.updateRoomBiome,
          updateRoomWithHistory_room]
      intro l hl
      rw [hroom] at hl
      exact hinv l hl
    | updateRoomChance chance =>
      intro l hl
      exact hinv l hl
    | applyTileBrush layerName x y =>
      cases hbr : s.tileBrush with
      | none =>
        have hroom : (applyCmd (Cmd.applyTileBrush layerName x y) s).room
            = s.room := by
          simp [applyCmd, RoomEditor.applyTileBrush, hbr]
        rw [hroom]
        exact hinv
      | some brush =>
        cases hf : s.room.layers.findIdx? (fun l => l.name == layerName) with
        | none =>
          have hroom : (applyCmd (Cmd.applyTileBrush layerName x y) s).room
              = s.room := by
            simp [applyCmd, RoomEditor.applyTileBrush, hbr, hf]
          rw [hroom]
          exact hinv
        | some layerIndex =>
          cases hg : s.room.layers[layerIndex]? with
          | none =>
            have hroom : (applyCmd (Cmd.applyTileBrush layerName x y) s).room
                = s.room := by
              simp [applyCmd, RoomEditor.applyTileBrush, hbr,
                List.get?_eq_getElem?, hf, hg]
            rw [hroom]
            exact hinv
          | some targetLayer =>
            by_cases ht : targetLayer.type = LayerType.tile
            · have ht2 : (targetLayer.type != LayerType.tile) = false := by
                simp [ht]
              have hroom :
                  (applyCmd (Cmd.applyTileBrush layerName x y) s).room.layers
                  = s.room.layers.set layerIndex
                      { targetLayer with
                          tiles := (applyBrushTiles s.room.width
                            s.room.height layerName x y brush.tiles
                            targetLayer.tiles).1 } := by
                cases hb : s.isPainting <;>
                  simp [applyCmd, RoomEditor.applyTileBrush, hbr,
                    List.get?_eq_getElem?, hf, hg, ht2, hb, addToHistory_room]
              intro l hl
              rw [hroom] at hl
              rcases List.mem_or_eq_of_mem_set hl with h | h
              · exact hinv l h
              · rw [h]
                have htl : targetLayer ∈ s.room.layers :=
                  List.getElem?_mem hg
                exact brushFold_pairwise s.room.width s.room.height layerName
                  x y brush.tiles (targetLayer.tiles, [])
                  (hinv targetLayer htl)
            · have ht2 : (targetLayer.type != LayerType.tile) = true := by
                simp [bne_iff_ne, ht]
              have hroom :
                  (applyCmd (Cmd.applyTileBrush layerName x y) s).room
                  = s.room := by
                simp [applyCmd, RoomEditor.applyTileBrush, hbr,
                  List.get?_eq_getElem?, hf, hg, ht2]
              rw [hroom]
              exact hinv
  · intro layerName x y i1 i2 _hne hlayer
    cases hf0 : s.room.layers.find? (fun l => l.name == layerName) with
    | none => rw [hasTileLayer, hf0] at hlayer; cases hlayer
    | some layer0 =>
      have ht0 : layer0.type = LayerType.tile := by
        rw [hasTileLayer, hf0] at hlayer
        simpa using hlayer
      have hlayers1 : (addTile s layerName x y i1).room.layers =
          updateFirstLayer s.room.layers layerName
            (fun l => { l with tiles := upsertTile l.tiles x y i1 }) := by
        rw [addTile_room_of_find hf0 ht0]
      have hfind1 :
          (updateFirstLayer s.room.layers layerName
              (fun l => { l with tiles := upsertTile l.tiles x y i1 })).find?
            (fun l => l.name == layerName)
          = some { layer0 with tiles := upsertTile layer0.tiles x y i1 } := by
        rw [find?_updateFirstLayer
          (fun l => { l with tiles := upsertTile l.tiles x y i1 })
          (fun l => rfl), hf0]
        rfl
      have hfind1' : (addTile s layerName x y i1).room.layers.find?
            (fun l => l.name == layerName)
          = some { layer0 with tiles := upsertTile layer0.tiles x y i1 } := by
        rw [hlayers1]
        exact hfind1
      have ht1 : ({ layer0 with
          tiles := upsertTile layer0.tiles x y i1 } : Layer).type
          = LayerType.tile := ht0
      have hlayers2 :
          (addTile (addTile s layerName x y i1) layerName x y i2).room.layers
          = updateFirstLayer
              (updateFirstLayer s.room.layers layerName
                (fun l => { l with tiles := upsertTile l.tiles x y i1 }))
              layerName
              (fun l => { l with tiles := upsertTile l.tiles x y i2 }) := by
        rw [addTile_room_of_find hfind1' ht1]
        show updateFirstLayer (addTile s layerName x y i1).room.layers
            layerName
            (fun l => { l with tiles := upsertTile l.tiles x y i2 }) = _
        rw [hlayers1]
      have hp0 : LayerInv layer0 :=
        hinv layer0 (List.mem_of_find?_eq_some hf0)
      refine ⟨{ layer0 with
          tiles := upsertTile (upsertTile layer0.tiles x y i1) x y i2 },
        ?_, ?_⟩
      · show (addTile (addTile s layerName x y i1)
            layerName x y i2).room.layers.find?
            (fun l => l.name == layerName) = _
        rw [hlayers2]
        rw [find?_updateFirstLayer
          (fun l => { l with tiles := upsertTile l.tiles x y i2 })
          (fun l => rfl), hfind1]
        rfl
      · exact filter_upsertTile (upsertTile_pairwise hp0)

/-- Witness for C7: on `groundRoom` (invariant holds) the invariant is kept
by a concrete `addTile` and the double placement at (16,16) leaves exactly
one tile with the later index 9. -/
theorem tileOccupancy_invariant_witness :
    RoomInv (applyCmd (Cmd.addTile ("Ground") 16 16 3) groundState).room ∧
    ∃ l, firstLayer?
        (addTile (addTile groundState ("Ground") 16 16 3) ("Ground") 16 16 9).room
        ("Ground") = some l ∧
      l.tiles.filter (fun t => t.x == 16 && t.y == 16) =
        [{ x := 16, y := 16, index := 9 }] := by
  have hinv : RoomInv groundState.room := by
    intro l hl
    simp only [groundState, initialEditorState, groundRoom,
      List.mem_singleton] at hl
    rw [hl]
    simp [LayerInv]
  have h := tileOccupancy_invariant groundState hinv
  exact ⟨h.1 (Cmd.addTile ("Ground") 16 16 3) trivial,
    h.2 ("Ground") 16 16 3 9 (by decide) (by decide)⟩

end RoomEditor
